import Mathlib

/-!
TBRo-Microcontroller: the `continuousStepper` motion core of `src/main.cpp` and the
command layer `receiveCommands` that drives it.

A shallow embedding of the stepper class of `src/main.cpp`, of the Arduino primitives
it calls and of the command dispatch, followed by theorems about them.

Conventions of the embedding.

* The target is the AVR Arduino core: `int` and `int16_t` are 16 bits wide,
  `long` and `unsigned long` are 32 bits wide.  Machine integers are `Int`
  (signed) or `Nat` (unsigned); every place where the machine reduces a value
  is an explicit `toInt16`, `toInt32`, `toUInt16` or `toUInt32`.
* A pin level is a `Bool`: `HIGH = true`, `LOW = false`.
* The class stores the *numbers* of its eight pins (`EN`, `DIR`, ...).  Each
  number names a distinct output pin (the two instances of the program use
  `A0..A7` and `2..9`), so the embedding stores under the same name the *level*
  last written to that pin with `digitalWrite`.
* `millis()` and `micros()` are inputs of `run`: one call of `run` sees one
  reading `now_ms` of the millisecond clock and one reading `now_us` of the
  microsecond clock.
* A division whose divisor is zero has no defined result: `run` returns `none`
  when it would evaluate one.
* The serial line is an input of `receiveCommands`: its first byte after
  `toUpperCase` and the number `String::toInt` parses from the rest.
-/

namespace TBRo

/-! ## Machine integers -/

/-- Conversion to a signed 16 bit integer (`int`, `int16_t`): wraps modulo `2^16`. -/
def toInt16 (x : Int) : Int := (x + 32768) % 65536 - 32768

/-- Conversion to a signed 32 bit integer (`long`): wraps modulo `2^32`. -/
def toInt32 (x : Int) : Int := (x + 2147483648) % 4294967296 - 2147483648

/-- Conversion to an unsigned 16 bit integer (`uint16_t`): reduces modulo `2^16`. -/
def toUInt16 (x : Int) : Nat := (x % 65536).toNat

/-- Conversion to an unsigned 32 bit integer (`unsigned long`): reduces modulo `2^32`. -/
def toUInt32 (x : Int) : Nat := (x % 4294967296).toNat

/-- Pin level `HIGH`. -/
abbrev HIGH : Bool := true

/-- Pin level `LOW`. -/
abbrev LOW : Bool := false

/-! ## Arduino primitives used by the class -/

/-- Arduino `constrain(amt,low,high)`: an expression macro,
`((amt)<(low)?(low):((amt)>(high)?(high):(amt)))`.  It yields the clamped value and
leaves `amt` itself untouched. -/
def constrain (amt low high : Int) : Int :=
  if amt < low then low else if amt > high then high else amt

/-- Arduino `long map(long x, long in_min, long in_max, long out_min, long out_max)`:
`(x - in_min) * (out_max - out_min) / (in_max - in_min) + out_min` in `long`
arithmetic, the division truncating towards zero. -/
def map (x in_min in_max out_min out_max : Int) : Int :=
  toInt32
    (toInt32
        (Int.tdiv (toInt32 (toInt32 (x - in_min) * toInt32 (out_max - out_min)))
          (toInt32 (in_max - in_min)))
      + out_min)

/-- Arduino `abs(x)`, the macro `((x)>0?(x):-(x))`, on an `int`. -/
def arduinoAbs (x : Int) : Int := if x > 0 then x else toInt16 (-x)

/-! ## The data model -/

/-- The enumeration `microstep` (lines 7-13). -/
inductive microstep where
  | FULL
  | HALF
  | QUARTER
  | EIGHTH
  | SIXTEENTH
  deriving DecidableEq

/-- Integer value of an enumerator of `microstep`. -/
def microstep.val : microstep → Int
  | .FULL => 1
  | .HALF => 2
  | .QUARTER => 4
  | .EIGHTH => 8
  | .SIXTEENTH => 16

/-- The class `continuousStepper` (lines 34-44).  `speed`, `targetSpeed` and
`maxSpeed` are `int16_t`, `accel` is `uint16_t`, the two timestamps are
`unsigned long`; `EN` ... `MS3` hold the level of the pin of that name. -/
structure continuousStepper where
  speed : Int
  accel : Nat
  targetSpeed : Int
  prevStepTime_us : Nat
  prevAccelTime_ms : Nat
  maxSpeed : Int
  stepsize : microstep
  invert : Bool
  stepState : Bool
  EN : Bool
  DIR : Bool
  STP : Bool
  SLP : Bool
  RST : Bool
  MS1 : Bool
  MS2 : Bool
  MS3 : Bool
  deriving DecidableEq

namespace continuousStepper

/-- The constructor (lines 47-55) with the default member initialisers of lines
35-43.  All pins start `LOW`.  `stepsize` has no initialiser in the source and is
always overwritten by `init` before it is read; it is given the value `FULL` here. -/
def construct (Invert : Bool) : continuousStepper :=
  { speed := 0, accel := 50, targetSpeed := 0, prevStepTime_us := 0, prevAccelTime_ms := 0,
    maxSpeed := 200, stepsize := .FULL, invert := Invert, stepState := false,
    EN := LOW, DIR := LOW, STP := LOW, SLP := LOW, RST := LOW,
    MS1 := LOW, MS2 := LOW, MS3 := LOW }

/-- Method `on()` (lines 100-104). -/
def on_ (m : continuousStepper) : continuousStepper :=
  { m with SLP := HIGH, RST := HIGH, EN := LOW }

/-- Method `stop()` (line 114). -/
def stop (m : continuousStepper) : continuousStepper :=
  { m with targetSpeed := 0 }

/-- Method `off()` (lines 106-112). -/
def off (m : continuousStepper) : continuousStepper :=
  { m.stop with speed := 0, SLP := LOW, RST := LOW, EN := HIGH }

/-- Method `init(stepSize)` (lines 58-98). -/
def init (m : continuousStepper) (stepSize : microstep) : continuousStepper :=
  let m := m.off
  let m := { m with stepsize := stepSize }
  match stepSize with
  | .FULL => { m with MS1 := LOW, MS2 := LOW, MS3 := LOW }
  | .HALF => { m with MS1 := HIGH, MS2 := LOW, MS3 := LOW }
  | .QUARTER => { m with MS1 := LOW, MS2 := HIGH, MS3 := LOW }
  | .EIGHTH => { m with MS1 := HIGH, MS2 := HIGH, MS3 := LOW }
  | .SIXTEENTH => { m with MS1 := HIGH, MS2 := HIGH, MS3 := HIGH }

/-- Method `setAccel(uint16_t Accel)` (lines 117-119); the argument is converted to
`uint16_t` at the call. -/
def setAccel (m : continuousStepper) (Accel : Int) : continuousStepper :=
  { m with accel := toUInt16 Accel }

/-- Method `setMaxSpeed(int16_t stepsPerSecond)` (lines 120-122); the argument is
converted to `int16_t` at the call. -/
def setMaxSpeed (m : continuousStepper) (stepsPerSecond : Int) : continuousStepper :=
  { m with maxSpeed := toInt16 stepsPerSecond }

/-- Method `setSpeed(int16_t Speed)` (lines 123-128); the argument is converted to
`int16_t` at the call.  Line 124 evaluates `constrain(Speed,-255,255)` and discards
the value; `Speed` is passed to `map` as it came in.  `-maxSpeed*stepsize` and
`maxSpeed*stepsize` are `int` expressions; the `long` result of `map` is converted
to `int16_t` by the assignment. -/
def setSpeed (m : continuousStepper) (Speed : Int) : continuousStepper :=
  let Speed := toInt16 Speed
  let _discarded := constrain Speed (-255) 255
  { m with
    targetSpeed :=
      toInt16
        (map Speed (-255) 255
          (toInt16 (toInt16 (-m.maxSpeed) * m.stepsize.val))
          (toInt16 (m.maxSpeed * m.stepsize.val))) }

/-- Method `getSpeed()` (line 129). -/
def getSpeed (m : continuousStepper) : Int := m.speed

/-- Method `getTargetSpeed()` (line 130). -/
def getTargetSpeed (m : continuousStepper) : Int := m.targetSpeed

/-- The speed update of the ramp block of `run()` (lines 135-146). -/
def rampStep (m : continuousStepper) : continuousStepper :=
  if m.speed < m.targetSpeed then
    let m := { m with speed := toInt16 (m.speed + m.stepsize.val) }
    if m.speed > m.targetSpeed then { m with speed := m.targetSpeed } else m
  else if m.speed > m.targetSpeed then
    let m := { m with speed := toInt16 (m.speed - m.stepsize.val) }
    if m.speed < m.targetSpeed then { m with speed := m.targetSpeed } else m
  else m

/-- The direction update of the ramp block of `run()` (lines 148-160). -/
def setDirection (m : continuousStepper) : continuousStepper :=
  if m.speed > 0 then
    if m.invert then { m with DIR := HIGH } else { m with DIR := LOW }
  else if m.speed < 0 then
    if m.invert then { m with DIR := LOW } else { m with DIR := HIGH }
  else m

/-- The condition of line 133, `millis()-prevAccelTime_ms>1000/accel`, for
`accel != 0`: the difference is taken in `unsigned long`. -/
def rampGate (m : continuousStepper) (now_ms : Nat) : Bool :=
  decide (toUInt32 ((now_ms : Int) - m.prevAccelTime_ms) > 1000 / m.accel)

/-- The ramp block of `run()` (lines 133-161), for `accel != 0`. -/
def ramp (m : continuousStepper) (now_ms : Nat) : continuousStepper :=
  if rampGate m now_ms then
    setDirection (rampStep { m with prevAccelTime_ms := toUInt32 now_ms })
  else m

/-- The divisor `abs(speed)*2` of line 167: an `int` expression, converted to
`unsigned long` for the division of `(unsigned long)1000000` by it. -/
def pulseDivisor (speed : Int) : Nat :=
  toUInt32 (toInt16 (arduinoAbs speed * 2))

/-- The condition of line 167, `micros()-prevStepTime_us>(unsigned long)1000000/(abs(speed)*2)`,
for a non-zero divisor. -/
def pulseGate (m : continuousStepper) (now_us : Nat) : Bool :=
  decide (toUInt32 ((now_us : Int) - m.prevStepTime_us) > 1000000 / pulseDivisor m.speed)

/-- The power saving block of `run()` (lines 176-180). -/
def power (m : continuousStepper) : continuousStepper :=
  if m.speed = 0 ∧ m.targetSpeed = 0 then m.off else m.on_

/-- Method `run()` (lines 131-181).  The second argument and the second component
of the result are the global `uint16_t stepCount` (line 32).  The result is `none`
when line 133 divides by `accel == 0` or line 167 divides by a zero `abs(speed)*2`. -/
def run (m : continuousStepper) (stepCount : Nat) (now_ms now_us : Nat) :
    Option (continuousStepper × Nat) :=
  if m.accel = 0 then none
  else
    let m := ramp m now_ms
    if m.speed ≠ 0 then
      if pulseDivisor m.speed = 0 then none
      else if pulseGate m now_us then
        let m := { m with prevStepTime_us := toUInt32 now_us }
        let m := { m with stepState := !m.stepState }
        let m := { m with STP := m.stepState }
        some (power m, toUInt16 ((stepCount : Int) + 1))
      else some (power m, stepCount)
    else some (power m, stepCount)

end continuousStepper

open continuousStepper

/-- The state of a unit after `setup()` (lines 192-195): constructed, `init(stepSize)`,
then `on()`. -/
def afterSetup (stepSize : microstep) (Invert : Bool) : continuousStepper :=
  ((construct Invert).init stepSize).on_

/-- One pass of `loop()` at millisecond `t_ms` as far as one unit is concerned: its
`run()` (lines 292-293), the microsecond clock reading `1000 * t_ms`. -/
def runAt (s : Option (continuousStepper × Nat)) (t_ms : Nat) :
    Option (continuousStepper × Nat) :=
  s.bind fun p => run p.1 p.2 t_ms (1000 * t_ms)

/-- Method `run()` called once at each of the given readings of the millisecond clock,
in order. -/
def runAtEach (m : continuousStepper) (stepCount : Nat) (times : List Nat) :
    Option (continuousStepper × Nat) :=
  times.foldl runAt (some (m, stepCount))

/-- The clock readings, among the given ones, at which the ramp gate of `run()` was
open when `run()` was called once at each of them, in order. -/
def rampTimes : Option (continuousStepper × Nat) → List Nat → List Nat
  | some p, t :: ts =>
      (if rampGate p.1 t then [t] else []) ++ rampTimes (runAt (some p) t) ts
  | _, _ => []

/-- Repeated ramp steps: `n` executions of the speed update of lines 135-146. -/
def rampSteps : Nat → continuousStepper → continuousStepper
  | 0, m => m
  | n + 1, m => rampStep (rampSteps n m)

/-- The ramp block of `run()` (lines 133-161) executed once at each of the given
readings of the millisecond clock, in order. -/
def rampAtEach (m : continuousStepper) (times : List Nat) : continuousStepper :=
  times.foldl ramp m

/-- The driver is powered down: `EN` is `HIGH`, `SLP` and `RST` are `LOW`. -/
def poweredDown (m : continuousStepper) : Prop :=
  m.EN = HIGH ∧ m.SLP = LOW ∧ m.RST = LOW

/-- The driver is powered up: `EN` is `LOW`, `SLP` and `RST` are `HIGH`. -/
def poweredUp (m : continuousStepper) : Prop :=
  m.EN = LOW ∧ m.SLP = HIGH ∧ m.RST = HIGH

instance (m : continuousStepper) : Decidable (poweredDown m) :=
  inferInstanceAs (Decidable (m.EN = HIGH ∧ m.SLP = LOW ∧ m.RST = LOW))

instance (m : continuousStepper) : Decidable (poweredUp m) :=
  inferInstanceAs (Decidable (m.EN = LOW ∧ m.SLP = HIGH ∧ m.RST = HIGH))

/-- The number of given clock readings at which the ramp gate was open when the ramp
block of `run()` was executed once at each of them, in order: the number of ramp steps
taken. -/
def rampCount (m : continuousStepper) : List Nat → Nat
  | [] => 0
  | t :: ts => (if rampGate m t then 1 else 0) + rampCount (ramp m t) ts

/-! ## The command layer -/

/-- The enumeration `commandType` (lines 15-30). -/
inductive commandType where
  | FORWARD
  | BACKWARD
  | LEFT
  | RIGHT
  | PIVOT_R
  | PIVOT_L
  | TURN_R
  | TURN_L
  | L_FORWARD
  | R_FORWARD
  | STOP
  | SET_SPEED
  | SET_ACCEL
  | SET_MICROSTEP
  deriving DecidableEq

/-- Value of an enumerator of `commandType`: the code of its character, `'W'`, `'S'`,
`'A'`, `'D'`, `'E'`, `'Q'`, `'L'`, `'J'`, `'['`, `']'`, `'X'`, `':'`, `'@'`, `'M'`. -/
def commandType.val : commandType → Nat
  | .FORWARD => 87
  | .BACKWARD => 83
  | .LEFT => 65
  | .RIGHT => 68
  | .PIVOT_R => 69
  | .PIVOT_L => 81
  | .TURN_R => 76
  | .TURN_L => 74
  | .L_FORWARD => 91
  | .R_FORWARD => 93
  | .STOP => 88
  | .SET_SPEED => 58
  | .SET_ACCEL => 64
  | .SET_MICROSTEP => 77

/-- The `case` labels of the `switch` of `receiveCommands` (lines 213-258), in order.
`STOP` has no label. -/
def caseLabels : List commandType :=
  [.FORWARD, .BACKWARD, .LEFT, .RIGHT, .PIVOT_R, .PIVOT_L, .TURN_R, .TURN_L,
    .L_FORWARD, .R_FORWARD, .SET_SPEED, .SET_ACCEL, .SET_MICROSTEP]

/-- The label that `switch(type)` jumps to for the byte `type`; `none` is `default:`. -/
def selectCase (type : Nat) : Option commandType :=
  caseLabels.find? fun c => c.val = type

/-- The global variables of `main.cpp`: `stepCount` (line 32), the two motor objects
(lines 186-187) and the four `int16_t` command values (lines 198-201). -/
structure Globals where
  stepCount : Nat
  leftMotor : continuousStepper
  rightMotor : continuousStepper
  speedL : Int
  speedR : Int
  offsetL : Int
  offsetR : Int
  deriving DecidableEq

/-- The bodies of the `switch` of `receiveCommands` (lines 213-270) for the selected
label and the `int16_t value`.  A unary minus is an `int` operation. -/
def dispatchCase (g : Globals) (label : Option commandType) (value : Int) : Globals :=
  match label with
  | some .FORWARD => { g with speedL := value, speedR := value }
  | some .BACKWARD => { g with speedL := toInt16 (-value), speedR := toInt16 (-value) }
  | some .LEFT => { g with speedL := toInt16 (-value), speedR := value }
  | some .RIGHT => { g with speedL := value, speedR := toInt16 (-value) }
  | some .PIVOT_R => { g with speedR := toInt16 (-value), speedL := 0 }
  | some .PIVOT_L => { g with speedL := toInt16 (-value), speedR := 0 }
  | some .TURN_R => { g with offsetR := toInt16 (-value) }
  | some .TURN_L => { g with offsetL := toInt16 (-value) }
  | some .L_FORWARD => { g with speedL := value }
  | some .R_FORWARD => { g with speedR := value }
  | some .SET_SPEED =>
      { g with leftMotor := g.leftMotor.setSpeed value,
               rightMotor := g.rightMotor.setSpeed value }
  | some .SET_ACCEL =>
      { g with leftMotor := g.leftMotor.setAccel value,
               rightMotor := g.rightMotor.setAccel value }
  | some .SET_MICROSTEP =>
      { g with leftMotor := g.leftMotor.setSpeed value,
               rightMotor := g.rightMotor.setSpeed value }
  | _ =>
      { g with speedL := 0, speedR := 0, offsetL := 0, offsetR := 0,
               leftMotor := g.leftMotor.stop, rightMotor := g.rightMotor.stop }

/-- The `switch` of `receiveCommands` (lines 212-271) on the first byte `type` of the
upper-cased line and the `int16_t value`. -/
def dispatch (g : Globals) (type : Nat) (value : Int) : Globals :=
  dispatchCase g (selectCase type) value

/-- Function `receiveCommands()` (lines 203-278) when a line is available: `type` is
the first byte of the upper-cased line and `parsed` the `long` that `String::toInt`
returns for the rest of it.  Line 211 evaluates `constrain(value,-255,255)` and
discards the value.  `speedL+offsetL` and `speedR+offsetR` are `int` sums. -/
def receiveCommands (g : Globals) (type : Nat) (parsed : Int) : Globals :=
  let value := toInt16 parsed
  let _discarded := constrain value (-255) 255
  let g := dispatch g type value
  { g with
    leftMotor := g.leftMotor.setSpeed (toInt16 (g.speedL + g.offsetL)),
    rightMotor := g.rightMotor.setSpeed (toInt16 (g.speedR + g.offsetR)) }

/-- The arguments of the `setSpeed` calls that `receiveCommands()` executes for one
line, in the order of the calls (lines 252-253 or 260-261, then lines 273-274). -/
def setSpeedArguments (g : Globals) (type : Nat) (parsed : Int) : List Int :=
  let value := toInt16 parsed
  let g1 := dispatch g type value
  (if selectCase type = some .SET_SPEED ∨ selectCase type = some .SET_MICROSTEP then
      [value, value]
    else [])
    ++ [toInt16 (g1.speedL + g1.offsetL), toInt16 (g1.speedR + g1.offsetR)]

/-- The globals after `setup()` (lines 186-201): both units set up with `QUARTER`
microstepping, the left one not inverted and the right one inverted. -/
def afterSetupGlobals : Globals :=
  { stepCount := 0, leftMotor := afterSetup .QUARTER false,
    rightMotor := afterSetup .QUARTER true,
    speedL := 0, speedR := 0, offsetL := 0, offsetR := 0 }

/-- A sequence of received lines, each given by its first byte and its parsed number,
handled by `receiveCommands()` in order. -/
def receiveAll (g : Globals) (lines : List (Nat × Int)) : Globals :=
  lines.foldl (fun g l => receiveCommands g l.1 l.2) g

namespace Globals

/-- A call `leftMotor.f(...)` of a method that touches the object only. -/
def onLeft (g : Globals) (f : continuousStepper → continuousStepper) : Globals :=
  { g with leftMotor := f g.leftMotor }

/-- A call `rightMotor.f(...)` of a method that touches the object only. -/
def onRight (g : Globals) (f : continuousStepper → continuousStepper) : Globals :=
  { g with rightMotor := f g.rightMotor }

/-- The call `leftMotor.run()` (line 292). -/
def runLeft (g : Globals) (now_ms now_us : Nat) : Option Globals :=
  (run g.leftMotor g.stepCount now_ms now_us).map fun r =>
    { g with leftMotor := r.1, stepCount := r.2 }

/-- The call `rightMotor.run()` (line 293). -/
def runRight (g : Globals) (now_ms now_us : Nat) : Option Globals :=
  (run g.rightMotor g.stepCount now_ms now_us).map fun r =>
    { g with rightMotor := r.1, stepCount := r.2 }

/-- The operations of a motor unit considered for the independence of the two units:
the calls `setSpeed(rawValue)`, `stop()`, `on()`, `off()` and `run()`, the last with
the clock readings it sees. -/
inductive Operation where
  | setSpeed (rawValue : Int)
  | stop
  | on_
  | off
  | run (now_ms now_us : Nat)

/-- The call `leftMotor.op`. -/
def callLeft (g : Globals) : Operation → Option Globals
  | .setSpeed rawValue => some (g.onLeft fun m => m.setSpeed rawValue)
  | .stop => some (g.onLeft continuousStepper.stop)
  | .on_ => some (g.onLeft continuousStepper.on_)
  | .off => some (g.onLeft continuousStepper.off)
  | .run now_ms now_us => g.runLeft now_ms now_us

/-- The call `rightMotor.op`. -/
def callRight (g : Globals) : Operation → Option Globals
  | .setSpeed rawValue => some (g.onRight fun m => m.setSpeed rawValue)
  | .stop => some (g.onRight continuousStepper.stop)
  | .on_ => some (g.onRight continuousStepper.on_)
  | .off => some (g.onRight continuousStepper.off)
  | .run now_ms now_us => g.runRight now_ms now_us

end Globals

/-- The first `k` readings of the millisecond clock that are 21 ms apart: 21, 42, ...,
`21 * k`. -/
def every21ms (k : Nat) : List Nat :=
  (List.range k).map fun j => 21 * (j + 1)

/-- The number `ceil(|targetSpeed - speed| / stepsize)` of ramp steps between the
current speed and the target, in integer arithmetic. -/
def rampStepsToTarget (m : continuousStepper) : Nat :=
  ((|m.targetSpeed - m.speed| + m.stepsize.val - 1) / m.stepsize.val).toNat

/-- The mapping law in the words of the specification (section 8):
`round(rawValue × maxSpeed × microstepFactor / 255)`, the rational quotient rounded
to the nearest integer. -/
def specTargetSpeed (rawValue maxSpeed microstepFactor : Int) : Int :=
  round (((rawValue * maxSpeed * microstepFactor : Int) : ℚ) / 255)

/-! ## Lemmas on the machine integers -/

theorem toInt16_of_range {x : Int} (h1 : -32768 ≤ x) (h2 : x ≤ 32767) : toInt16 x = x := by
  unfold toInt16; omega

theorem toInt32_of_range {x : Int} (h1 : -2147483648 ≤ x) (h2 : x ≤ 2147483647) :
    toInt32 x = x := by
  unfold toInt32; omega

theorem microstep.val_pos (s : microstep) : 1 ≤ s.val := by
  cases s <;> decide

theorem microstep.val_le (s : microstep) : s.val ≤ 16 := by
  cases s <;> decide

/-- On the input range `[-255,255]` and an output range `[-M,M]` with `0 < M ≤ 32767`,
`map` is the floor of `x * M / 255`. -/
theorem map_eq_floor (x M : Int) (hlo : -255 ≤ x) (hhi : x ≤ 255) (hM : 0 < M)
    (hM' : M ≤ 32767) : map x (-255) 255 (-M) M = x * M / 255 := by
  have hq1 : -(255 * M) ≤ x * M := by nlinarith
  have hq2 : x * M ≤ 255 * M := by nlinarith
  have h1 : toInt32 (x - -255) = x + 255 := toInt32_of_range (by omega) (by omega)
  have h2 : toInt32 (M - -M) = 2 * M := by
    rw [toInt32_of_range (by omega) (by omega)]; ring
  have h3 : toInt32 (255 - -255) = 510 := by decide
  have hP : (x + 255) * (2 * M) = 2 * (x * M) + 510 * M := by ring
  unfold map
  rw [h1, h2, h3, hP]
  generalize x * M = q at hq1 hq2 ⊢
  have e1 : toInt32 (2 * q + 510 * M) = 2 * q + 510 * M :=
    toInt32_of_range (by omega) (by omega)
  have e2 : (2 * q + 510 * M).tdiv 510 = (2 * q + 510 * M) / 510 :=
    Int.tdiv_eq_ediv (by omega) (by omega)
  have e3 : toInt32 ((2 * q + 510 * M) / 510) = (2 * q + 510 * M) / 510 :=
    toInt32_of_range (by omega) (by omega)
  rw [e1, e2, e3, toInt32_of_range (by omega) (by omega)]
  omega

/-- The value stored by `setSpeed` for an input in `[-255,255]`. -/
theorem setSpeed_targetSpeed_eq (m : continuousStepper) (rawValue : Int)
    (hlo : -255 ≤ rawValue) (hhi : rawValue ≤ 255) (hmax : 0 < m.maxSpeed)
    (hfit : m.maxSpeed * m.stepsize.val ≤ 32767) :
    (m.setSpeed rawValue).targetSpeed = rawValue * (m.maxSpeed * m.stepsize.val) / 255 := by
  have hv := m.stepsize.val_pos
  have hM : 0 < m.maxSpeed * m.stepsize.val := by positivity
  have hms : m.maxSpeed ≤ 32767 := by nlinarith
  have hq1 : -(255 * (m.maxSpeed * m.stepsize.val)) ≤ rawValue * (m.maxSpeed * m.stepsize.val) := by
    nlinarith
  have hq2 : rawValue * (m.maxSpeed * m.stepsize.val) ≤ 255 * (m.maxSpeed * m.stepsize.val) := by
    nlinarith
  have hn1 : toInt16 (-m.maxSpeed) = -m.maxSpeed := toInt16_of_range (by omega) (by omega)
  have hn2 : toInt16 (-m.maxSpeed * m.stepsize.val) = -(m.maxSpeed * m.stepsize.val) := by
    rw [neg_mul]; exact toInt16_of_range (by omega) (by omega)
  have hp : toInt16 (m.maxSpeed * m.stepsize.val) = m.maxSpeed * m.stepsize.val :=
    toInt16_of_range (by omega) (by omega)
  have hr : toInt16 rawValue = rawValue := toInt16_of_range (by omega) (by omega)
  show toInt16 (map (toInt16 rawValue) (-255) 255
    (toInt16 (toInt16 (-m.maxSpeed) * m.stepsize.val)) (toInt16 (m.maxSpeed * m.stepsize.val)))
      = _
  rw [hn1, hn2, hp, hr, map_eq_floor _ _ hlo hhi hM hfit]
  generalize rawValue * (m.maxSpeed * m.stepsize.val) = q at hq1 hq2 ⊢
  exact toInt16_of_range (by omega) (by omega)

/-! ## Speed mapper -/

/-- C1, as the specification states it, fails: with `maxSpeed = 200` and
`QUARTER` microstepping `setSpeed(128)` stores 401, while
`round(128 × 200 × 4 / 255) = round(401.57) = 402`. -/
theorem setSpeed_128_not_rounded :
    ((afterSetup .QUARTER false).setSpeed 128).targetSpeed = 401 ∧
      specTargetSpeed 128 200 4 = 402 ∧
      ((afterSetup .QUARTER false).setSpeed 128).targetSpeed
        ≠ specTargetSpeed 128 (afterSetup .QUARTER false).maxSpeed
            (afterSetup .QUARTER false).stepsize.val := by
  have h1 : ((afterSetup .QUARTER false).setSpeed 128).targetSpeed = 401 := by decide
  have h2 : specTargetSpeed 128 200 4 = 402 := by
    unfold specTargetSpeed
    rw [round_eq, Int.floor_eq_iff]
    norm_num
  refine ⟨h1, h2, ?_⟩
  have h3 : (afterSetup .QUARTER false).maxSpeed = 200 := by decide
  have h4 : (afterSetup .QUARTER false).stepsize.val = 4 := by decide
  rw [h1, h3, h4, h2]
  decide

/-- C1, amended: for every `rawValue` in `[-255,255]`, every `maxSpeed > 0` and every
microstep factor with `maxSpeed * microstepFactor` fitting in `int16`, `setSpeed(rawValue)`
stores the floor of `rawValue × maxSpeed × microstepFactor / 255` (rounding towards
minus infinity, not to nearest). -/
theorem setSpeed_targetSpeed_floor (m : continuousStepper) (rawValue : Int)
    (hlo : -255 ≤ rawValue) (hhi : rawValue ≤ 255) (hmax : 0 < m.maxSpeed)
    (hfit : m.maxSpeed * m.stepsize.val ≤ 32767) :
    (m.setSpeed rawValue).targetSpeed
      = ⌊((rawValue * (m.maxSpeed * m.stepsize.val) : Int) : ℚ) / 255⌋ := by
  rw [setSpeed_targetSpeed_eq m rawValue hlo hhi hmax hfit]
  have := Rat.floor_intCast_div_natCast (rawValue * (m.maxSpeed * m.stepsize.val)) 255
  simpa using this.symm

theorem setSpeed_targetSpeed_floor_witness :
    ((afterSetup .QUARTER false).setSpeed (-128)).targetSpeed
      = ⌊(((-128) * ((afterSetup .QUARTER false).maxSpeed
            * (afterSetup .QUARTER false).stepsize.val) : Int) : ℚ) / 255⌋ :=
  setSpeed_targetSpeed_floor (afterSetup .QUARTER false) (-128) (by decide) (by decide)
    (by decide) (by decide)

/-- C2: for every `maxSpeed > 0` and microstep factor with `maxSpeed * microstepFactor`
fitting in `int16`, `setSpeed(255)` stores `maxSpeed * microstepFactor`, `setSpeed(-255)`
stores its negation and `setSpeed(0)` stores 0; with `maxSpeed = 200` and `QUARTER`
microstepping `setSpeed(255)` stores 800. -/
theorem setSpeed_boundaries (m : continuousStepper) (hmax : 0 < m.maxSpeed)
    (hfit : m.maxSpeed * m.stepsize.val ≤ 32767) :
    (m.setSpeed 255).targetSpeed = m.maxSpeed * m.stepsize.val ∧
      (m.setSpeed (-255)).targetSpeed = -(m.maxSpeed * m.stepsize.val) ∧
      (m.setSpeed 0).targetSpeed = 0 ∧
      (m.maxSpeed = 200 → m.stepsize = .QUARTER → (m.setSpeed 255).targetSpeed = 800) := by
  have e1 := setSpeed_targetSpeed_eq m 255 (by decide) (by decide) hmax hfit
  have e2 := setSpeed_targetSpeed_eq m (-255) (by decide) (by decide) hmax hfit
  have e3 := setSpeed_targetSpeed_eq m 0 (by decide) (by decide) hmax hfit
  refine ⟨by rw [e1]; omega, by rw [e2]; omega, by rw [e3]; omega, ?_⟩
  intro h200 hq
  rw [e1, h200, hq]
  decide

theorem setSpeed_boundaries_witness :
    ((afterSetup .QUARTER false).setSpeed 255).targetSpeed
        = (afterSetup .QUARTER false).maxSpeed * (afterSetup .QUARTER false).stepsize.val ∧
      ((afterSetup .QUARTER false).setSpeed (-255)).targetSpeed
        = -((afterSetup .QUARTER false).maxSpeed * (afterSetup .QUARTER false).stepsize.val) ∧
      ((afterSetup .QUARTER false).setSpeed 0).targetSpeed = 0 ∧
      ((afterSetup .QUARTER false).maxSpeed = 200 →
        (afterSetup .QUARTER false).stepsize = .QUARTER →
        ((afterSetup .QUARTER false).setSpeed 255).targetSpeed = 800) :=
  setSpeed_boundaries (afterSetup .QUARTER false) (by decide) (by decide)


/-! ## Accel ramper -/

theorem rampStep_speed (m : continuousStepper) :
    (rampStep m).speed =
      if m.speed < m.targetSpeed then
        if toInt16 (m.speed + m.stepsize.val) > m.targetSpeed then m.targetSpeed
        else toInt16 (m.speed + m.stepsize.val)
      else if m.speed > m.targetSpeed then
        if toInt16 (m.speed - m.stepsize.val) < m.targetSpeed then m.targetSpeed
        else toInt16 (m.speed - m.stepsize.val)
      else m.speed := by
  simp only [rampStep, gt_iff_lt]
  split_ifs <;> rfl

theorem rampStep_targetSpeed (m : continuousStepper) :
    (rampStep m).targetSpeed = m.targetSpeed := by
  simp only [rampStep, gt_iff_lt]
  split_ifs <;> rfl

theorem rampStep_stepsize (m : continuousStepper) : (rampStep m).stepsize = m.stepsize := by
  simp only [rampStep, gt_iff_lt]
  split_ifs <;> rfl

theorem setDirection_speed (m : continuousStepper) : (setDirection m).speed = m.speed := by
  unfold setDirection
  split_ifs <;> rfl

theorem setDirection_targetSpeed (m : continuousStepper) :
    (setDirection m).targetSpeed = m.targetSpeed := by
  unfold setDirection
  split_ifs <;> rfl

theorem ramp_speed_of_gate (m : continuousStepper) (now_ms : Nat)
    (hgate : rampGate m now_ms = true) : (ramp m now_ms).speed = (rampStep m).speed := by
  unfold ramp
  rw [if_pos hgate, setDirection_speed, rampStep_speed, rampStep_speed]

theorem ramp_targetSpeed (m : continuousStepper) (now_ms : Nat) :
    (ramp m now_ms).targetSpeed = m.targetSpeed := by
  unfold ramp
  split_ifs
  · rw [setDirection_targetSpeed, rampStep_targetSpeed]
  · rfl

theorem power_speed (m : continuousStepper) : (power m).speed = m.speed := by
  unfold power
  split_ifs with h
  · exact h.1.symm
  · rfl

theorem power_targetSpeed (m : continuousStepper) :
    (power m).targetSpeed = m.targetSpeed := by
  unfold power
  split_ifs with h
  · exact h.2.symm
  · rfl

/-- The pulse block and the power block of `run()` leave the fields the ramp block works
on as the ramp block left them. -/
theorem run_ramp_fields (m : continuousStepper) (stepCount now_ms now_us : Nat)
    (r : continuousStepper × Nat) (h : run m stepCount now_ms now_us = some r) :
    r.1.speed = (ramp m now_ms).speed ∧ r.1.targetSpeed = (ramp m now_ms).targetSpeed ∧
      r.1.stepsize = (ramp m now_ms).stepsize ∧ r.1.accel = (ramp m now_ms).accel ∧
      r.1.prevAccelTime_ms = (ramp m now_ms).prevAccelTime_ms ∧
      r.1.invert = (ramp m now_ms).invert ∧ r.1.maxSpeed = (ramp m now_ms).maxSpeed ∧
      r.1.DIR = (ramp m now_ms).DIR := by
  unfold run at h
  simp only at h
  split_ifs at h <;> simp only [Option.some.injEq] at h <;> subst h <;>
    refine ⟨by rw [power_speed], by rw [power_targetSpeed], ?_, ?_, ?_, ?_, ?_, ?_⟩ <;>
    (unfold power; split_ifs <;> rfl)

/-- A ramp step that starts below the target, without `int16` overflow. -/
theorem rampStep_speed_up (m : continuousStepper) (hlt : m.speed < m.targetSpeed)
    (hlo : -32768 ≤ m.speed) (hfit : m.speed + m.stepsize.val ≤ 32767) :
    (rampStep m).speed = min (m.speed + m.stepsize.val) m.targetSpeed := by
  have hv := m.stepsize.val_pos
  rw [rampStep_speed, if_pos hlt, toInt16_of_range (by omega) hfit]
  split_ifs with h
  · exact (min_eq_right (by omega)).symm
  · exact (min_eq_left (by omega)).symm

/-- A ramp step that starts above the target, without `int16` overflow. -/
theorem rampStep_speed_down (m : continuousStepper) (hgt : m.targetSpeed < m.speed)
    (hhi : m.speed ≤ 32767) (hfit : -32768 ≤ m.speed - m.stepsize.val) :
    (rampStep m).speed = max (m.speed - m.stepsize.val) m.targetSpeed := by
  have hv := m.stepsize.val_pos
  rw [rampStep_speed, if_neg (by omega), if_pos hgt, toInt16_of_range hfit (by omega)]
  split_ifs with h
  · exact (max_eq_right (by omega)).symm
  · exact (max_eq_left (by omega)).symm

theorem rampStep_speed_eq (m : continuousStepper) (heq : m.speed = m.targetSpeed) :
    (rampStep m).speed = m.speed := by
  rw [rampStep_speed, if_neg (by omega), if_neg (by omega)]

/-- C3, the failing input: on the state left by `setup()` (`maxSpeed = 200`, `QUARTER`,
bound 800) `setSpeed(1000)` stores `targetSpeed = 3137`, because the value of
`constrain(Speed,-255,255)` is discarded; 201 ramp steps of `run()` later
`currentSpeed` is 804.  Both exceed `maxSpeed * microstepFactor`. -/
theorem setSpeed_1000_exceeds_bound :
    (afterSetup .QUARTER false).maxSpeed * (afterSetup .QUARTER false).stepsize.val = 800 ∧
      constrain 1000 (-255) 255 = 255 ∧
      ((afterSetup .QUARTER false).setSpeed 1000).targetSpeed = 3137 ∧
      (runAtEach ((afterSetup .QUARTER false).setSpeed 1000) 0
          ((List.range 201).map fun k => 21 * (k + 1))).map (fun p => p.1.speed)
        = some 804 := by
  refine ⟨by decide, by decide, by decide, ?_⟩
  set_option maxRecDepth 100000 in decide

/-- C4: one ramp step of `run()` (ramp gate open), taken without `int16` overflow of
`speed ± stepsize`, yields a speed between the old speed and `targetSpeed` inclusive
that differs from the old speed by at most the microstep factor, and leaves the speed
unchanged when it already equals `targetSpeed`. -/
theorem ramp_step_toward_target (m : continuousStepper) (now_ms : Nat)
    (hgate : rampGate m now_ms = true)
    (hs : -32768 ≤ m.speed ∧ m.speed ≤ 32767)
    (hup : m.speed < m.targetSpeed → m.speed + m.stepsize.val ≤ 32767)
    (hdn : m.targetSpeed < m.speed → -32768 ≤ m.speed - m.stepsize.val) :
    ((m.speed ≤ (ramp m now_ms).speed ∧ (ramp m now_ms).speed ≤ m.targetSpeed) ∨
        (m.targetSpeed ≤ (ramp m now_ms).speed ∧ (ramp m now_ms).speed ≤ m.speed)) ∧
      |(ramp m now_ms).speed - m.speed| ≤ m.stepsize.val ∧
      (m.speed = m.targetSpeed → (ramp m now_ms).speed = m.speed) ∧
      (ramp m now_ms).targetSpeed = m.targetSpeed := by
  have hv := m.stepsize.val_pos
  rw [ramp_speed_of_gate m now_ms hgate, ramp_targetSpeed]
  rcases lt_trichotomy m.speed m.targetSpeed with hlt | heq | hgt
  · rw [rampStep_speed_up m hlt hs.1 (hup hlt)]
    refine ⟨Or.inl ⟨?_, ?_⟩, ?_, fun h => absurd h (by omega), rfl⟩
    · exact le_min (by omega) (by omega)
    · exact min_le_right _ _
    · rw [abs_le]
      rcases min_cases (m.speed + m.stepsize.val) m.targetSpeed with ⟨h, _⟩ | ⟨h, _⟩ <;>
        rw [h] <;> constructor <;> omega
  · rw [rampStep_speed_eq m heq]
    refine ⟨Or.inl ⟨le_refl _, by omega⟩, ?_, fun _ => rfl, rfl⟩
    simp only [sub_self, abs_zero]
    omega
  · rw [rampStep_speed_down m hgt hs.2 (hdn hgt)]
    refine ⟨Or.inr ⟨?_, ?_⟩, ?_, fun h => absurd h (by omega), rfl⟩
    · exact le_max_right _ _
    · exact max_le (by omega) (by omega)
    · rw [abs_le]
      rcases max_cases (m.speed - m.stepsize.val) m.targetSpeed with ⟨h, _⟩ | ⟨h, _⟩ <;>
        rw [h] <;> constructor <;> omega

theorem ramp_step_toward_target_witness :
    ((({ afterSetup .QUARTER false with targetSpeed := 6 }).speed
            ≤ (ramp { afterSetup .QUARTER false with targetSpeed := 6 } 21).speed ∧
          (ramp { afterSetup .QUARTER false with targetSpeed := 6 } 21).speed
            ≤ ({ afterSetup .QUARTER false with targetSpeed := 6 }).targetSpeed) ∨
        (({ afterSetup .QUARTER false with targetSpeed := 6 }).targetSpeed
            ≤ (ramp { afterSetup .QUARTER false with targetSpeed := 6 } 21).speed ∧
          (ramp { afterSetup .QUARTER false with targetSpeed := 6 } 21).speed
            ≤ ({ afterSetup .QUARTER false with targetSpeed := 6 }).speed)) ∧
      |(ramp { afterSetup .QUARTER false with targetSpeed := 6 } 21).speed
          - ({ afterSetup .QUARTER false with targetSpeed := 6 }).speed|
        ≤ ({ afterSetup .QUARTER false with targetSpeed := 6 }).stepsize.val ∧
      (({ afterSetup .QUARTER false with targetSpeed := 6 }).speed
          = ({ afterSetup .QUARTER false with targetSpeed := 6 }).targetSpeed →
        (ramp { afterSetup .QUARTER false with targetSpeed := 6 } 21).speed
          = ({ afterSetup .QUARTER false with targetSpeed := 6 }).speed) ∧
      (ramp { afterSetup .QUARTER false with targetSpeed := 6 } 21).targetSpeed
        = ({ afterSetup .QUARTER false with targetSpeed := 6 }).targetSpeed :=
  ramp_step_toward_target { afterSetup .QUARTER false with targetSpeed := 6 } 21
    (by decide) (by decide) (by decide) (by decide)

theorem rampSteps_targetSpeed (n : Nat) (m : continuousStepper) :
    (rampSteps n m).targetSpeed = m.targetSpeed := by
  induction n with
  | zero => rfl
  | succ n ih => rw [rampSteps, rampStep_targetSpeed, ih]

theorem rampSteps_stepsize (n : Nat) (m : continuousStepper) :
    (rampSteps n m).stepsize = m.stepsize := by
  induction n with
  | zero => rfl
  | succ n ih => rw [rampSteps, rampStep_stepsize, ih]

/-- Below a target with `targetSpeed + stepsize` in `int16`, repeated ramp steps keep
the speed in `int16` and at or below the target. -/
theorem rampSteps_speed_le (m : continuousStepper) (h0 : m.speed ≤ m.targetSpeed)
    (hlo : -32768 ≤ m.speed) (hfit : m.targetSpeed + m.stepsize.val ≤ 32767) (n : Nat) :
    -32768 ≤ (rampSteps n m).speed ∧ (rampSteps n m).speed ≤ m.targetSpeed := by
  have hv := m.stepsize.val_pos
  induction n with
  | zero => exact ⟨hlo, h0⟩
  | succ n ih =>
    have ht := rampSteps_targetSpeed n m
    have hz := rampSteps_stepsize n m
    rcases lt_or_eq_of_le ih.2 with hlt | heq
    · rw [rampSteps, rampStep_speed_up _ (by rw [ht]; exact hlt) ih.1 (by rw [hz]; omega),
        ht, hz]
      exact ⟨le_min (by omega) (by omega), min_le_right _ _⟩
    · rw [rampSteps, rampStep_speed_eq _ (by rw [ht]; exact heq)]
      exact ih

theorem rampSteps_stay (m : continuousStepper) (n : Nat)
    (heq : (rampSteps n m).speed = m.targetSpeed) (k : Nat) :
    (rampSteps (n + k) m).speed = m.targetSpeed := by
  induction k with
  | zero => exact heq
  | succ k ih =>
    rw [← Nat.add_assoc, rampSteps,
      rampStep_speed_eq _ (by rw [rampSteps_targetSpeed]; exact ih)]
    exact ih

theorem ramp_stepsize (m : continuousStepper) (now_ms : Nat) :
    (ramp m now_ms).stepsize = m.stepsize := by
  unfold ramp setDirection
  split_ifs <;> simp only [rampStep_stepsize]

theorem ramp_of_closed (m : continuousStepper) (now_ms : Nat)
    (hgate : rampGate m now_ms = false) : ramp m now_ms = m := by
  unfold ramp
  rw [hgate]
  rfl

/-- Below a target with `targetSpeed + stepsize` in `int16`, one execution of the ramp
block keeps the speed in `int16`, does not lower it and keeps it at or below the target. -/
theorem ramp_speed_le (m : continuousStepper) (now_ms : Nat) (h0 : m.speed ≤ m.targetSpeed)
    (hlo : -32768 ≤ m.speed) (hfit : m.targetSpeed + m.stepsize.val ≤ 32767) :
    m.speed ≤ (ramp m now_ms).speed ∧ (ramp m now_ms).speed ≤ m.targetSpeed := by
  have hv := m.stepsize.val_pos
  cases hgate : rampGate m now_ms with
  | false => rw [ramp_of_closed m now_ms hgate]; exact ⟨le_refl _, h0⟩
  | true =>
    rw [ramp_speed_of_gate m now_ms hgate]
    rcases lt_or_eq_of_le h0 with hlt | heq
    · rw [rampStep_speed_up m hlt hlo (by omega)]
      exact ⟨le_min (by omega) (by omega), min_le_right _ _⟩
    · rw [rampStep_speed_eq m heq]
      exact ⟨le_refl _, h0⟩

theorem rampAtEach_append (m : continuousStepper) (ts us : List Nat) :
    rampAtEach m (ts ++ us) = rampAtEach (rampAtEach m ts) us := by
  unfold rampAtEach
  rw [List.foldl_append]

theorem rampAtEach_snoc (m : continuousStepper) (ts : List Nat) (t : Nat) :
    rampAtEach m (ts ++ [t]) = ramp (rampAtEach m ts) t := by
  rw [rampAtEach_append]
  rfl

theorem rampAtEach_fixed (m : continuousStepper) (ts : List Nat) :
    (rampAtEach m ts).targetSpeed = m.targetSpeed ∧ (rampAtEach m ts).stepsize = m.stepsize := by
  induction ts using List.reverseRecOn with
  | nil => exact ⟨rfl, rfl⟩
  | append_singleton ts t ih =>
    rw [rampAtEach_snoc, ramp_targetSpeed, ramp_stepsize]
    exact ih

theorem rampAtEach_speed_le (m : continuousStepper) (h0 : m.speed ≤ m.targetSpeed)
    (hlo : -32768 ≤ m.speed) (hfit : m.targetSpeed + m.stepsize.val ≤ 32767)
    (ts : List Nat) :
    m.speed ≤ (rampAtEach m ts).speed ∧ (rampAtEach m ts).speed ≤ m.targetSpeed := by
  induction ts using List.reverseRecOn with
  | nil => exact ⟨le_refl _, h0⟩
  | append_singleton ts t ih =>
    have hf := rampAtEach_fixed m ts
    have := ramp_speed_le (rampAtEach m ts) t (by rw [hf.1]; exact ih.2) (by omega)
      (by rw [hf.1, hf.2]; exact hfit)
    rw [rampAtEach_snoc]
    rw [hf.1] at this
    exact ⟨by omega, this.2⟩

theorem rampAtEach_stay (m : continuousStepper) (heq : m.speed = m.targetSpeed)
    (us : List Nat) : (rampAtEach m us).speed = m.targetSpeed := by
  induction us using List.reverseRecOn with
  | nil => exact heq
  | append_singleton us u ih =>
    have hf := rampAtEach_fixed m us
    rw [rampAtEach_snoc]
    cases hgate : rampGate (rampAtEach m us) u with
    | false => rw [ramp_of_closed _ u hgate]; exact ih
    | true =>
      rw [ramp_speed_of_gate _ u hgate, rampStep_speed_eq _ (by rw [hf.1]; exact ih)]
      exact ih

/-- C5, as the specification states it, fails: with `QUARTER` microstepping, speed 0 and
the target 3 stored by `setSpeed(1)`, the `run()` at 21 ms takes a ramp step while
`currentSpeed != targetSpeed` and changes the speed by 3, not by the microstep factor 4. -/
theorem run_last_ramp_step_shorter :
    ((afterSetup .QUARTER false).setSpeed 1).speed = 0 ∧
      ((afterSetup .QUARTER false).setSpeed 1).targetSpeed = 3 ∧
      ((afterSetup .QUARTER false).setSpeed 1).stepsize.val = 4 ∧
      rampGate ((afterSetup .QUARTER false).setSpeed 1) 21 = true ∧
      (run ((afterSetup .QUARTER false).setSpeed 1) 0 21 21000).map (fun p => p.1.speed)
        = some 3 := by
  decide

/-- C5, amended: for every sequence of executions of the ramp block of `run()` with
fixed `targetSpeed` above the initial `currentSpeed` (and `targetSpeed + microstepFactor`
in `int16`), `currentSpeed` never decreases and never exceeds `targetSpeed`; a ramp step
(gate open) taken at least one microstep factor below the target changes it by exactly
the microstep factor; a ramp step taken closer to the target than that lands on
`targetSpeed`; with the gate closed the speed is unchanged; and once
`currentSpeed == targetSpeed` it stays equal on all later executions. -/
theorem ramp_ticks_monotone_to_target (m : continuousStepper)
    (h0 : m.speed < m.targetSpeed) (hlo : -32768 ≤ m.speed)
    (hfit : m.targetSpeed + m.stepsize.val ≤ 32767) (ts : List Nat) (t : Nat) :
    (rampAtEach m ts).speed ≤ (rampAtEach m (ts ++ [t])).speed ∧
      (rampAtEach m ts).speed ≤ m.targetSpeed ∧
      (rampGate (rampAtEach m ts) t = true →
        (rampAtEach m ts).speed + m.stepsize.val ≤ m.targetSpeed →
        (rampAtEach m (ts ++ [t])).speed = (rampAtEach m ts).speed + m.stepsize.val) ∧
      (rampGate (rampAtEach m ts) t = true →
        m.targetSpeed - m.stepsize.val < (rampAtEach m ts).speed →
        (rampAtEach m (ts ++ [t])).speed = m.targetSpeed) ∧
      (rampGate (rampAtEach m ts) t = false →
        (rampAtEach m (ts ++ [t])).speed = (rampAtEach m ts).speed) ∧
      ((rampAtEach m ts).speed = m.targetSpeed →
        ∀ us, (rampAtEach m (ts ++ us)).speed = m.targetSpeed) := by
  have hv := m.stepsize.val_pos
  have hn := rampAtEach_speed_le m (le_of_lt h0) hlo hfit ts
  have hf := rampAtEach_fixed m ts
  have hstep := ramp_speed_le (rampAtEach m ts) t (by rw [hf.1]; exact hn.2) (by omega)
    (by rw [hf.1, hf.2]; exact hfit)
  rw [rampAtEach_snoc]
  refine ⟨hstep.1, hn.2, ?_, ?_, ?_, ?_⟩
  · intro hgate hfar
    rw [ramp_speed_of_gate _ t hgate,
      rampStep_speed_up _ (by rw [hf.1]; omega) (by omega) (by rw [hf.2]; omega), hf.1, hf.2]
    exact min_eq_left hfar
  · intro hgate hnear
    rw [ramp_speed_of_gate _ t hgate]
    rcases lt_or_eq_of_le hn.2 with hlt | heq
    · rw [rampStep_speed_up _ (by rw [hf.1]; exact hlt) (by omega) (by rw [hf.2]; omega),
        hf.1, hf.2]
      exact min_eq_right (by omega)
    · rw [rampStep_speed_eq _ (by rw [hf.1]; exact heq)]
      exact heq
  · intro hgate
    rw [ramp_of_closed _ t hgate]
  · intro heq us
    rw [rampAtEach_append, rampAtEach_stay _ (by rw [hf.1]; exact heq) us, hf.1]

theorem ramp_ticks_monotone_to_target_witness :
    (rampAtEach ((afterSetup .QUARTER false).setSpeed 2) [21, 30]).speed
        ≤ (rampAtEach ((afterSetup .QUARTER false).setSpeed 2) ([21, 30] ++ [42])).speed ∧
      (rampAtEach ((afterSetup .QUARTER false).setSpeed 2) [21, 30]).speed
        ≤ ((afterSetup .QUARTER false).setSpeed 2).targetSpeed ∧
      (rampGate (rampAtEach ((afterSetup .QUARTER false).setSpeed 2) [21, 30]) 42 = true →
        (rampAtEach ((afterSetup .QUARTER false).setSpeed 2) [21, 30]).speed
            + ((afterSetup .QUARTER false).setSpeed 2).stepsize.val
          ≤ ((afterSetup .QUARTER false).setSpeed 2).targetSpeed →
        (rampAtEach ((afterSetup .QUARTER false).setSpeed 2) ([21, 30] ++ [42])).speed
          = (rampAtEach ((afterSetup .QUARTER false).setSpeed 2) [21, 30]).speed
            + ((afterSetup .QUARTER false).setSpeed 2).stepsize.val) ∧
      (rampGate (rampAtEach ((afterSetup .QUARTER false).setSpeed 2) [21, 30]) 42 = true →
        ((afterSetup .QUARTER false).setSpeed 2).targetSpeed
            - ((afterSetup .QUARTER false).setSpeed 2).stepsize.val
          < (rampAtEach ((afterSetup .QUARTER false).setSpeed 2) [21, 30]).speed →
        (rampAtEach ((afterSetup .QUARTER false).setSpeed 2) ([21, 30] ++ [42])).speed
          = ((afterSetup .QUARTER false).setSpeed 2).targetSpeed) ∧
      (rampGate (rampAtEach ((afterSetup .QUARTER false).setSpeed 2) [21, 30]) 42 = false →
        (rampAtEach ((afterSetup .QUARTER false).setSpeed 2) ([21, 30] ++ [42])).speed
          = (rampAtEach ((afterSetup .QUARTER false).setSpeed 2) [21, 30]).speed) ∧
      ((rampAtEach ((afterSetup .QUARTER false).setSpeed 2) [21, 30]).speed
          = ((afterSetup .QUARTER false).setSpeed 2).targetSpeed →
        ∀ us, (rampAtEach ((afterSetup .QUARTER false).setSpeed 2) ([21, 30] ++ us)).speed
          = ((afterSetup .QUARTER false).setSpeed 2).targetSpeed) :=
  ramp_ticks_monotone_to_target ((afterSetup .QUARTER false).setSpeed 2)
    (by decide) (by decide) (by decide) [21, 30] 42

/-- C6, as the specification states it, fails: with `accel = 50`, starting from speed 0,
target 800, `QUARTER` microstepping and `prevAccelTime_ms = 0`, and `run()` called at
every millisecond 0, 1, ..., 200, the ramp gate has opened 9 times, not 10, and
`currentSpeed` is 36, not 40. -/
theorem run_200ms_nine_ramp_steps :
    ((afterSetup .QUARTER false).setSpeed 255).speed = 0 ∧
      ((afterSetup .QUARTER false).setSpeed 255).targetSpeed = 800 ∧
      ((afterSetup .QUARTER false).setSpeed 255).accel = 50 ∧
      ((afterSetup .QUARTER false).setSpeed 255).prevAccelTime_ms = 0 ∧
      (rampTimes (some ((afterSetup .QUARTER false).setSpeed 255, 0)) (List.range 201)).length
        = 9 ∧
      (runAtEach ((afterSetup .QUARTER false).setSpeed 255) 0 (List.range 201)).map
          (fun p => p.1.speed) = some 36 := by
  refine ⟨by decide, by decide, by decide, by decide, ?_, ?_⟩
  · set_option maxRecDepth 100000 in decide
  · set_option maxRecDepth 100000 in decide

/-- C6, amended: with `accel = 50` the ramp gate of `run()` is open exactly when more
than 20 ms (`1000/accel`) have passed since the last ramp step, so with `run()` called
at every millisecond it opens every 21 ms: starting from speed 0, target 800, `QUARTER`
microstepping and `prevAccelTime_ms = 0`, the gate opens at 21, 42, ..., 189 ms, the
state at 200 ms has had 9 ramp steps and `currentSpeed == 36`, and `currentSpeed == 40`
is reached by the tenth ramp step at 210 ms. -/
theorem run_accel50_ramps_every_21ms :
    (∀ prev now : Nat,
        rampGate { (afterSetup .QUARTER false).setSpeed 255 with prevAccelTime_ms := prev } now
          = decide (toUInt32 ((now : Int) - prev) > 20)) ∧
      rampTimes (some ((afterSetup .QUARTER false).setSpeed 255, 0)) (List.range 201)
        = [21, 42, 63, 84, 105, 126, 147, 168, 189] ∧
      (runAtEach ((afterSetup .QUARTER false).setSpeed 255) 0 (List.range 201)).map
          (fun p => (p.1.speed, p.1.targetSpeed)) = some (36, 800) ∧
      (runAtEach ((afterSetup .QUARTER false).setSpeed 255) 0 (List.range 210)).map
          (fun p => p.1.speed) = some 36 ∧
      (runAtEach ((afterSetup .QUARTER false).setSpeed 255) 0 (List.range 211)).map
          (fun p => p.1.speed) = some 40 := by
  refine ⟨fun prev now => ?_, ?_, ?_, ?_, ?_⟩
  · have h20 : (1000 : Nat) / 50 = 20 := by decide
    show decide (toUInt32 ((now : Int) - prev) > 1000 / 50) = _
    rw [h20]
  · set_option maxRecDepth 100000 in decide
  · set_option maxRecDepth 100000 in decide
  · set_option maxRecDepth 100000 in decide
  · set_option maxRecDepth 100000 in decide

/-! ## Power state controller -/

theorem pulseDivisor_ne_zero (speed : Int) (h0 : speed ≠ 0) (hlo : -32767 ≤ speed)
    (hhi : speed ≤ 32767) : pulseDivisor speed ≠ 0 := by
  unfold pulseDivisor arduinoAbs toUInt32 toInt16
  split_ifs <;> omega

theorem power_state (m : continuousStepper) :
    (poweredDown (power m) ↔ ((power m).speed = 0 ∧ (power m).targetSpeed = 0)) ∧
      (¬((power m).speed = 0 ∧ (power m).targetSpeed = 0) → poweredUp (power m)) := by
  unfold power
  split_ifs with h
  · simp [poweredDown, off, stop]
  · have hs : m.on_.speed = m.speed := rfl
    have ht : m.on_.targetSpeed = m.targetSpeed := rfl
    rw [hs, ht]
    simp [poweredDown, poweredUp, on_, h]

theorem run_eq_some_power (m : continuousStepper) (stepCount now_ms now_us : Nat)
    (r : continuousStepper × Nat) (h : run m stepCount now_ms now_us = some r) :
    ∃ m1, r.1 = power m1 := by
  unfold run at h
  simp only at h
  split_ifs at h <;> simp only [Option.some.injEq] at h <;> exact ⟨_, by rw [← h]⟩

theorem run_isSome (m : continuousStepper) (stepCount now_ms now_us : Nat)
    (hacc : 1 ≤ m.accel)
    (hdiv : (ramp m now_ms).speed = 0 ∨ pulseDivisor (ramp m now_ms).speed ≠ 0) :
    ∃ r, run m stepCount now_ms now_us = some r := by
  have ha : ¬ m.accel = 0 := by omega
  unfold run
  simp only [if_neg ha]
  split_ifs with h1 h2 h3
  · exact absurd h2 (hdiv.resolve_left h1)
  · exact ⟨_, rfl⟩
  · exact ⟨_, rfl⟩
  · exact ⟨_, rfl⟩

/-- C7: for every state with `accel >= 1`, every `stepCount` and every clock reading,
`run()` has a result whenever the speed after the ramp block lies in `[-32767, 32767]`
(so that line 167 does not divide by zero), and in every result of `run()` the driver is
powered down (`EN` `HIGH`, `SLP` and `RST` `LOW`) if and only if the resulting
`currentSpeed == 0` and `targetSpeed == 0`, and is otherwise powered up (`EN` `LOW`,
`SLP` and `RST` `HIGH`), whichever of the ramp gate and the pulse gate opened. -/
theorem run_power_state (m : continuousStepper) (stepCount now_ms now_us : Nat)
    (hacc : 1 ≤ m.accel) :
    ((-32767 ≤ (ramp m now_ms).speed ∧ (ramp m now_ms).speed ≤ 32767) →
        ∃ r, run m stepCount now_ms now_us = some r) ∧
      ∀ r, run m stepCount now_ms now_us = some r →
        (poweredDown r.1 ↔ (r.1.speed = 0 ∧ r.1.targetSpeed = 0)) ∧
          (¬(r.1.speed = 0 ∧ r.1.targetSpeed = 0) → poweredUp r.1) := by
  constructor
  · intro hr
    apply run_isSome m stepCount now_ms now_us hacc
    by_cases h0 : (ramp m now_ms).speed = 0
    · exact Or.inl h0
    · exact Or.inr (pulseDivisor_ne_zero _ h0 hr.1 hr.2)
  · intro r hrun
    obtain ⟨m1, hm1⟩ := run_eq_some_power m stepCount now_ms now_us r hrun
    rw [hm1]
    exact power_state m1

theorem run_power_state_witness :
    ((-32767 ≤ (ramp ((afterSetup .QUARTER false).setSpeed 255) 21).speed ∧
          (ramp ((afterSetup .QUARTER false).setSpeed 255) 21).speed ≤ 32767) →
        ∃ r, run ((afterSetup .QUARTER false).setSpeed 255) 0 21 21000 = some r) ∧
      ∀ r, run ((afterSetup .QUARTER false).setSpeed 255) 0 21 21000 = some r →
        (poweredDown r.1 ↔ (r.1.speed = 0 ∧ r.1.targetSpeed = 0)) ∧
          (¬(r.1.speed = 0 ∧ r.1.targetSpeed = 0) → poweredUp r.1) :=
  run_power_state ((afterSetup .QUARTER false).setSpeed 255) 0 21 21000 (by decide)

/-! ## Configuration and frame properties -/

/-- C8, as the specification states it, fails: `setAccel(0)` on the state left by
`setup()` stores `accel = 0`, and the next `run()` divides 1000 by it. -/
theorem setAccel_zero_is_stored :
    ((afterSetup .QUARTER false).setAccel 0).accel = 0 ∧
      run ((afterSetup .QUARTER false).setAccel 0) 0 0 0 = none := by
  decide

/-- C8, amended: `setAccel(a)` stores every `uint16` value `a` unchanged, with no
rejection and no clamp: the stored `accel` is at least 1 exactly when `a >= 1`, and
after `setAccel(0)` it is 0, a state in which every `run()` evaluates `1000/accel` with
`accel == 0`. -/
theorem setAccel_stores_argument (m : continuousStepper) (a : Nat) (ha : a < 65536) :
    (m.setAccel a).accel = a ∧
      (1 ≤ (m.setAccel a).accel ↔ 1 ≤ a) ∧
      (m.setAccel 0).accel = 0 ∧
      ∀ stepCount now_ms now_us, run (m.setAccel 0) stepCount now_ms now_us = none := by
  have h : (m.setAccel a).accel = a := by
    show toUInt16 (a : Int) = a
    unfold toUInt16
    omega
  refine ⟨h, by rw [h], rfl, fun stepCount now_ms now_us => ?_⟩
  have h0 : (m.setAccel 0).accel = 0 := rfl
  unfold run
  rw [if_pos h0]

theorem setAccel_stores_argument_witness :
    ((afterSetup .QUARTER false).setAccel (100 : Nat)).accel = 100 ∧
      (1 ≤ ((afterSetup .QUARTER false).setAccel (100 : Nat)).accel ↔ 1 ≤ 100) ∧
      ((afterSetup .QUARTER false).setAccel 0).accel = 0 ∧
      ∀ stepCount now_ms now_us,
        run ((afterSetup .QUARTER false).setAccel 0) stepCount now_ms now_us = none :=
  setAccel_stores_argument (afterSetup .QUARTER false) 100 (by decide)

/-- C9, as the specification states it, fails: in the state reached from `setup()` by
`setSpeed(255)` and `run()` at every millisecond up to 200 ms, `currentSpeed` is 36
and `off()` brings it to 0 at once. -/
theorem off_zeroes_nonzero_speed :
    (runAtEach ((afterSetup .QUARTER false).setSpeed 255) 0 (List.range 201)).map
        (fun p => (p.1.speed, p.1.off.speed)) = some (36, 0) := by
  set_option maxRecDepth 100000 in decide

/-- C9, amended: `setSpeed`, `stop`, `setAccel`, `setMaxSpeed` and `on` leave
`currentSpeed` unchanged for every starting state; `off()` (disable) sets
`currentSpeed` to 0 immediately, whatever it was; and `run()` changes `currentSpeed`
only by the ramp step, taken when the ramp gate is open. -/
theorem speed_changed_only_by_ramp_and_off (m : continuousStepper) (v : Int) :
    (m.setSpeed v).speed = m.speed ∧
      m.stop.speed = m.speed ∧
      (m.setAccel v).speed = m.speed ∧
      (m.setMaxSpeed v).speed = m.speed ∧
      m.on_.speed = m.speed ∧
      m.off.speed = 0 ∧
      ∀ stepCount now_ms now_us r, run m stepCount now_ms now_us = some r →
        r.1.speed = if rampGate m now_ms then (rampStep m).speed else m.speed := by
  refine ⟨rfl, rfl, rfl, rfl, rfl, rfl, fun stepCount now_ms now_us r h => ?_⟩
  rw [(run_ramp_fields m stepCount now_ms now_us r h).1]
  cases hgate : rampGate m now_ms with
  | false => rw [ramp_of_closed m now_ms hgate]; rfl
  | true => rw [ramp_speed_of_gate m now_ms hgate]; rfl

/-- C10: for every state and every `rawValue`, `setSpeed(rawValue)` changes no field of
the motor unit other than `targetSpeed`: `speed`, `accel`, `maxSpeed`, `stepsize`,
`invert`, both timestamps, `stepState` and the levels of all eight pins are unchanged. -/
theorem setSpeed_changes_only_targetSpeed (m : continuousStepper) (rawValue : Int) :
    m.setSpeed rawValue = { m with targetSpeed := (m.setSpeed rawValue).targetSpeed } ∧
      (m.setSpeed rawValue).speed = m.speed ∧
      (m.setSpeed rawValue).accel = m.accel ∧
      (m.setSpeed rawValue).maxSpeed = m.maxSpeed ∧
      (m.setSpeed rawValue).stepsize = m.stepsize ∧
      (m.setSpeed rawValue).invert = m.invert ∧
      (m.setSpeed rawValue).prevStepTime_us = m.prevStepTime_us ∧
      (m.setSpeed rawValue).prevAccelTime_ms = m.prevAccelTime_ms ∧
      (m.setSpeed rawValue).stepState = m.stepState ∧
      ((m.setSpeed rawValue).EN = m.EN ∧ (m.setSpeed rawValue).DIR = m.DIR ∧
        (m.setSpeed rawValue).STP = m.STP ∧ (m.setSpeed rawValue).SLP = m.SLP ∧
        (m.setSpeed rawValue).RST = m.RST ∧ (m.setSpeed rawValue).MS1 = m.MS1 ∧
        (m.setSpeed rawValue).MS2 = m.MS2 ∧ (m.setSpeed rawValue).MS3 = m.MS3) :=
  ⟨rfl, rfl, rfl, rfl, rfl, rfl, rfl, rfl, rfl, rfl, rfl, rfl, rfl, rfl, rfl, rfl, rfl⟩


/-! ## Step pulse generator -/

theorem ramp_pulse_fields (m : continuousStepper) (now_ms : Nat) :
    (ramp m now_ms).stepState = m.stepState ∧ (ramp m now_ms).STP = m.STP ∧
      (ramp m now_ms).prevStepTime_us = m.prevStepTime_us := by
  unfold ramp setDirection
  simp only [rampStep, gt_iff_lt]
  split_ifs <;> exact ⟨rfl, rfl, rfl⟩

theorem power_pulse_fields (m : continuousStepper) :
    (power m).stepState = m.stepState ∧ (power m).STP = m.STP ∧
      (power m).prevStepTime_us = m.prevStepTime_us := by
  unfold power
  split_ifs <;> exact ⟨rfl, rfl, rfl⟩

/-- When the speed is 0 after the ramp block, `run()` skips the pulse block. -/
theorem run_of_ramp_speed_zero (m : continuousStepper) (stepCount now_ms now_us : Nat)
    (hacc : 1 ≤ m.accel) (hz : (ramp m now_ms).speed = 0) :
    run m stepCount now_ms now_us = some (power (ramp m now_ms), stepCount) := by
  have ha : ¬ m.accel = 0 := by omega
  unfold run
  simp only [if_neg ha, ne_eq, hz, not_true_eq_false, if_false]

theorem ramp_speed_zero_of_stay (m : continuousStepper) (now_ms : Nat) (h0 : m.speed = 0)
    (hstay : m.targetSpeed = 0 ∨ rampGate m now_ms = false) : (ramp m now_ms).speed = 0 := by
  cases hgate : rampGate m now_ms with
  | false => rw [ramp_of_closed m now_ms hgate]; exact h0
  | true =>
    have ht : m.targetSpeed = 0 := by
      rcases hstay with h | h
      · exact h
      · rw [hgate] at h; exact absurd h (by decide)
    rw [ramp_speed_of_gate m now_ms hgate, rampStep_speed_eq m (by rw [h0, ht])]
    exact h0

/-- C11, as the specification states it, fails: the unit idles (speed 0, target 0) with
`run()` at every millisecond up to 209 ms, then `setSpeed(255)` is called; the state has
`currentSpeed == 0`, and the `run()` at 210 ms ramps the speed to 4 and toggles the step
pin in the same call: `stepState`, `STP`, `prevStepTime_us` and `stepCount` all change. -/
theorem run_pulses_from_zero_speed :
    (runAtEach (afterSetup .QUARTER false) 0 (List.range 210)).map
        (fun p => ((p.1.setSpeed 255).speed, (p.1.setSpeed 255).stepState,
          (p.1.setSpeed 255).STP, (p.1.setSpeed 255).prevStepTime_us, p.2))
        = some (0, false, LOW, 0, 0) ∧
      ((runAtEach (afterSetup .QUARTER false) 0 (List.range 210)).bind
          fun p => run (p.1.setSpeed 255) p.2 210 210000).map
        (fun r => (r.1.speed, r.1.stepState, r.1.STP, r.1.prevStepTime_us, r.2))
        = some (4, true, HIGH, 210000, 1) := by
  constructor
  · set_option maxRecDepth 100000 in decide
  · set_option maxRecDepth 100000 in decide

/-- C11, amended: for every state with `currentSpeed == 0` (and `accel >= 1`) and every
clock reading at which the ramp block leaves the speed at 0, that is when
`targetSpeed == 0` or the ramp gate is closed, `run()` has a result and performs no
pulse activity: `stepState`, the `STP` level, `prevStepTime_us` and `stepCount` are
unchanged. -/
theorem run_no_pulse_while_speed_stays_zero (m : continuousStepper)
    (stepCount now_ms now_us : Nat) (hacc : 1 ≤ m.accel) (h0 : m.speed = 0)
    (hstay : m.targetSpeed = 0 ∨ rampGate m now_ms = false) :
    ∃ r, run m stepCount now_ms now_us = some r ∧ r.1.stepState = m.stepState ∧
      r.1.STP = m.STP ∧ r.1.prevStepTime_us = m.prevStepTime_us ∧ r.2 = stepCount := by
  have hz := ramp_speed_zero_of_stay m now_ms h0 hstay
  have hp := power_pulse_fields (ramp m now_ms)
  have hr := ramp_pulse_fields m now_ms
  refine ⟨_, run_of_ramp_speed_zero m stepCount now_ms now_us hacc hz, ?_, ?_, ?_, rfl⟩
  · exact hp.1.trans hr.1
  · exact hp.2.1.trans hr.2.1
  · exact hp.2.2.trans hr.2.2

theorem run_no_pulse_while_speed_stays_zero_witness :
    ∃ r, run ((afterSetup .QUARTER false).setSpeed 255) 7 20 20000 = some r ∧
      r.1.stepState = ((afterSetup .QUARTER false).setSpeed 255).stepState ∧
      r.1.STP = ((afterSetup .QUARTER false).setSpeed 255).STP ∧
      r.1.prevStepTime_us = ((afterSetup .QUARTER false).setSpeed 255).prevStepTime_us ∧
      r.2 = 7 :=
  run_no_pulse_while_speed_stays_zero ((afterSetup .QUARTER false).setSpeed 255) 7 20 20000
    (by decide) (by decide) (Or.inr (by decide))

/-! ## Stop -/

theorem stop_eq_self (m : continuousStepper) (ht : m.targetSpeed = 0) : m.stop = m := by
  cases m
  simp_all [stop]

theorem iterate_stop_eq_self (m : continuousStepper) (ht : m.targetSpeed = 0) (n : Nat) :
    Nat.iterate stop n m = m := by
  induction n with
  | zero => rfl
  | succ n ih => rw [Function.iterate_succ_apply, stop_eq_self m ht, ih]

/-- C12: for every state with `currentSpeed == 0`, `targetSpeed == 0` and the driver
powered down, calling `stop()` any number `n` of times leaves the whole motor-unit
state unchanged and the driver powered down; a subsequent `run()` has a result when
`accel >= 1`, and every result of it has the driver powered down, with speed and
target still 0. -/
theorem stop_idempotent_at_rest (m : continuousStepper) (n : Nat) (hs : m.speed = 0)
    (ht : m.targetSpeed = 0) (hdown : poweredDown m) :
    Nat.iterate stop n m = m ∧ poweredDown (Nat.iterate stop n m) ∧
      (1 ≤ m.accel → ∀ stepCount now_ms now_us,
        ∃ r, run (Nat.iterate stop n m) stepCount now_ms now_us = some r) ∧
      ∀ stepCount now_ms now_us r,
        run (Nat.iterate stop n m) stepCount now_ms now_us = some r →
          poweredDown r.1 ∧ r.1.speed = 0 ∧ r.1.targetSpeed = 0 := by
  have hit := iterate_stop_eq_self m ht n
  rw [hit]
  refine ⟨rfl, hdown, fun hacc stepCount now_ms now_us => ?_,
    fun stepCount now_ms now_us r hrun => ?_⟩
  · exact ⟨_, run_of_ramp_speed_zero m stepCount now_ms now_us hacc
      (ramp_speed_zero_of_stay m now_ms hs (Or.inl ht))⟩
  · have hf := run_ramp_fields m stepCount now_ms now_us r hrun
    have hz := ramp_speed_zero_of_stay m now_ms hs (Or.inl ht)
    have hsp : r.1.speed = 0 := hf.1.trans hz
    have htg : r.1.targetSpeed = 0 := by rw [hf.2.1, ramp_targetSpeed]; exact ht
    obtain ⟨m1, hm1⟩ := run_eq_some_power m stepCount now_ms now_us r hrun
    have hps := power_state m1
    rw [← hm1] at hps
    exact ⟨hps.1.mpr ⟨hsp, htg⟩, hsp, htg⟩

theorem stop_idempotent_at_rest_witness :
    Nat.iterate stop 3 ((construct false).init .QUARTER) = (construct false).init .QUARTER ∧
      poweredDown (Nat.iterate stop 3 ((construct false).init .QUARTER)) ∧
      (1 ≤ ((construct false).init .QUARTER).accel → ∀ stepCount now_ms now_us,
        ∃ r, run (Nat.iterate stop 3 ((construct false).init .QUARTER))
          stepCount now_ms now_us = some r) ∧
      ∀ stepCount now_ms now_us r,
        run (Nat.iterate stop 3 ((construct false).init .QUARTER))
            stepCount now_ms now_us = some r →
          poweredDown r.1 ∧ r.1.speed = 0 ∧ r.1.targetSpeed = 0 :=
  stop_idempotent_at_rest ((construct false).init .QUARTER) 3 (by decide) (by decide)
    (by decide)


/-! ## Command layer -/

theorem dispatchCase_bounded (g : Globals) (label : Option commandType) (value : Int)
    (hv : -255 ≤ value ∧ value ≤ 255)
    (hsl : -255 ≤ g.speedL ∧ g.speedL ≤ 255) (hsr : -255 ≤ g.speedR ∧ g.speedR ≤ 255)
    (hol : -255 ≤ g.offsetL ∧ g.offsetL ≤ 255) (hor : -255 ≤ g.offsetR ∧ g.offsetR ≤ 255) :
    (-255 ≤ (dispatchCase g label value).speedL ∧ (dispatchCase g label value).speedL ≤ 255) ∧
      (-255 ≤ (dispatchCase g label value).speedR ∧
        (dispatchCase g label value).speedR ≤ 255) ∧
      (-255 ≤ (dispatchCase g label value).offsetL ∧
        (dispatchCase g label value).offsetL ≤ 255) ∧
      (-255 ≤ (dispatchCase g label value).offsetR ∧
        (dispatchCase g label value).offsetR ≤ 255) := by
  have hneg : toInt16 (-value) = -value := toInt16_of_range (by omega) (by omega)
  rcases label with _ | c
  · simp only [dispatchCase]; omega
  · cases c <;> simp only [dispatchCase, hneg] <;> omega

theorem dispatchCase_maxSpeed (g : Globals) (label : Option commandType) (value : Int) :
    (dispatchCase g label value).leftMotor.maxSpeed = g.leftMotor.maxSpeed ∧
      (dispatchCase g label value).rightMotor.maxSpeed = g.rightMotor.maxSpeed := by
  rcases label with _ | c
  · exact ⟨rfl, rfl⟩
  · cases c <;> exact ⟨rfl, rfl⟩

/-- C13, as the specification states it, fails: after the line `W255` the line `J-255`
(both values inside `[-255,255]`) makes `receiveCommands` call
`leftMotor.setSpeed(speedL+offsetL)` with 510, which stores the target 1600. -/
theorem receiveCommands_passes_510 :
    setSpeedArguments (receiveCommands afterSetupGlobals commandType.FORWARD.val 255)
        commandType.TURN_L.val (-255) = [510, 255] ∧
      (receiveAll afterSetupGlobals
          [(commandType.FORWARD.val, 255), (commandType.TURN_L.val, -255)]).leftMotor.targetSpeed
        = 1600 := by
  decide

/-- C13, amended: for every received line whose parsed value lies in `[-255,255]`, and
prior `speedL`, `speedR`, `offsetL`, `offsetR` in `[-255,255]`, every raw value that
`receiveCommands` passes to `setSpeed` lies in `[-510,510]`, and the four globals are in
`[-255,255]` again afterwards. -/
theorem receiveCommands_arguments_bounded (g : Globals) (type : Nat) (parsed : Int)
    (hv : -255 ≤ parsed ∧ parsed ≤ 255)
    (hsl : -255 ≤ g.speedL ∧ g.speedL ≤ 255) (hsr : -255 ≤ g.speedR ∧ g.speedR ≤ 255)
    (hol : -255 ≤ g.offsetL ∧ g.offsetL ≤ 255) (hor : -255 ≤ g.offsetR ∧ g.offsetR ≤ 255) :
    (∀ a ∈ setSpeedArguments g type parsed, -510 ≤ a ∧ a ≤ 510) ∧
      (-255 ≤ (receiveCommands g type parsed).speedL ∧
        (receiveCommands g type parsed).speedL ≤ 255) ∧
      (-255 ≤ (receiveCommands g type parsed).speedR ∧
        (receiveCommands g type parsed).speedR ≤ 255) ∧
      (-255 ≤ (receiveCommands g type parsed).offsetL ∧
        (receiveCommands g type parsed).offsetL ≤ 255) ∧
      (-255 ≤ (receiveCommands g type parsed).offsetR ∧
        (receiveCommands g type parsed).offsetR ≤ 255) := by
  have hval : toInt16 parsed = parsed := toInt16_of_range (by omega) (by omega)
  have hd := dispatchCase_bounded g (selectCase type) parsed hv hsl hsr hol hor
  have hsum : ∀ x y : Int, -255 ≤ x ∧ x ≤ 255 → -255 ≤ y ∧ y ≤ 255 →
      -510 ≤ toInt16 (x + y) ∧ toInt16 (x + y) ≤ 510 := by
    intro x y h1 h2
    rw [toInt16_of_range (by omega) (by omega)]
    omega
  refine ⟨?_, ?_⟩
  · intro a ha
    simp only [setSpeedArguments, dispatch, hval, List.mem_append, List.mem_cons,
      List.mem_singleton, List.not_mem_nil, or_false] at ha
    rcases ha with ha | ha | ha
    · split_ifs at ha
      · simp only [List.mem_cons, List.mem_singleton, List.not_mem_nil, or_false,
          or_self] at ha
        omega
      · simp only [List.not_mem_nil] at ha
    · rw [ha]; exact hsum _ _ hd.1 hd.2.2.1
    · rw [ha]; exact hsum _ _ hd.2.1 hd.2.2.2
  · simp only [receiveCommands, dispatch, hval]
    exact hd

theorem receiveCommands_arguments_bounded_witness :
    (∀ a ∈ setSpeedArguments (receiveCommands afterSetupGlobals commandType.FORWARD.val 255)
          commandType.TURN_L.val (-255),
        -510 ≤ a ∧ a ≤ 510) ∧
      (-255 ≤ (receiveCommands (receiveCommands afterSetupGlobals commandType.FORWARD.val 255)
          commandType.TURN_L.val (-255)).speedL ∧
        (receiveCommands (receiveCommands afterSetupGlobals commandType.FORWARD.val 255)
          commandType.TURN_L.val (-255)).speedL ≤ 255) ∧
      (-255 ≤ (receiveCommands (receiveCommands afterSetupGlobals commandType.FORWARD.val 255)
          commandType.TURN_L.val (-255)).speedR ∧
        (receiveCommands (receiveCommands afterSetupGlobals commandType.FORWARD.val 255)
          commandType.TURN_L.val (-255)).speedR ≤ 255) ∧
      (-255 ≤ (receiveCommands (receiveCommands afterSetupGlobals commandType.FORWARD.val 255)
          commandType.TURN_L.val (-255)).offsetL ∧
        (receiveCommands (receiveCommands afterSetupGlobals commandType.FORWARD.val 255)
          commandType.TURN_L.val (-255)).offsetL ≤ 255) ∧
      (-255 ≤ (receiveCommands (receiveCommands afterSetupGlobals commandType.FORWARD.val 255)
          commandType.TURN_L.val (-255)).offsetR ∧
        (receiveCommands (receiveCommands afterSetupGlobals commandType.FORWARD.val 255)
          commandType.TURN_L.val (-255)).offsetR ≤ 255) :=
  receiveCommands_arguments_bounded
    (receiveCommands afterSetupGlobals commandType.FORWARD.val 255)
    commandType.TURN_L.val (-255) (by decide) (by decide) (by decide) (by decide) (by decide)

/-- C14, the failing input: the line `:100` after `setup()`.  The case `SET_SPEED`
calls `setSpeed(value)`, not `setMaxSpeed(value)`, so `maxSpeed` of both units stays
200 where `setMaxSpeed(100)` would store 100; lines 273-274 then overwrite the target
with `speedL+offsetL = 0`.  No command changes `maxSpeed` of either unit. -/
theorem receiveCommands_never_sets_maxSpeed :
    selectCase 58 = some .SET_SPEED ∧
      (receiveCommands afterSetupGlobals 58 100).leftMotor.maxSpeed = 200 ∧
      (receiveCommands afterSetupGlobals 58 100).rightMotor.maxSpeed = 200 ∧
      (afterSetupGlobals.leftMotor.setMaxSpeed 100).maxSpeed = 100 ∧
      (receiveCommands afterSetupGlobals 58 100).leftMotor.targetSpeed = 0 ∧
      ∀ (g : Globals) (type : Nat) (parsed : Int),
        (receiveCommands g type parsed).leftMotor.maxSpeed = g.leftMotor.maxSpeed ∧
          (receiveCommands g type parsed).rightMotor.maxSpeed = g.rightMotor.maxSpeed := by
  refine ⟨by decide, by decide, by decide, by decide, by decide, fun g type parsed => ?_⟩
  exact dispatchCase_maxSpeed g (selectCase type) (toInt16 parsed)


/-- C20, as the specification states it, fails: with `maxSpeed = 200` and `QUARTER`
microstepping `setSpeed(128)` stores 401 and `setSpeed(-128)` stores -402; the lines
`W128` and `S128` command the left unit to 401 and to -402. -/
theorem setSpeed_128_not_symmetric :
    ((afterSetup .QUARTER false).setSpeed 128).targetSpeed = 401 ∧
      ((afterSetup .QUARTER false).setSpeed (-128)).targetSpeed = -402 ∧
      (receiveCommands afterSetupGlobals commandType.FORWARD.val 128).leftMotor.targetSpeed
        = 401 ∧
      (receiveCommands afterSetupGlobals commandType.BACKWARD.val 128).leftMotor.targetSpeed
        = -402 := by
  decide

/-- C20, amended: for every `rawValue` in `[-255,255]`, `maxSpeed > 0` and microstep
factor with the product in `int16`, the target stored by `setSpeed(-rawValue)` is the
negation of the one stored by `setSpeed(rawValue)` when 255 divides
`rawValue × maxSpeed × microstepFactor`, and one less than that negation otherwise.
With a zero offset, `FORWARD` and `RIGHT` store on the left unit the target of
`setSpeed(value)`, `BACKWARD` and `LEFT` that of `setSpeed(-value)`. -/
theorem setSpeed_negated_input (m : continuousStepper) (rawValue : Int)
    (hlo : -255 ≤ rawValue) (hhi : rawValue ≤ 255) (hmax : 0 < m.maxSpeed)
    (hfit : m.maxSpeed * m.stepsize.val ≤ 32767) :
    (m.setSpeed (-rawValue)).targetSpeed =
        (if (255 : Int) ∣ rawValue * (m.maxSpeed * m.stepsize.val) then
          -(m.setSpeed rawValue).targetSpeed
        else -(m.setSpeed rawValue).targetSpeed - 1) ∧
      ∀ g : Globals, g.leftMotor = m → g.offsetL = 0 →
        (receiveCommands g commandType.FORWARD.val rawValue).leftMotor.targetSpeed
            = (m.setSpeed rawValue).targetSpeed ∧
          (receiveCommands g commandType.RIGHT.val rawValue).leftMotor.targetSpeed
            = (m.setSpeed rawValue).targetSpeed ∧
          (receiveCommands g commandType.BACKWARD.val rawValue).leftMotor.targetSpeed
            = (m.setSpeed (-rawValue)).targetSpeed ∧
          (receiveCommands g commandType.LEFT.val rawValue).leftMotor.targetSpeed
            = (m.setSpeed (-rawValue)).targetSpeed := by
  constructor
  · rw [setSpeed_targetSpeed_eq m rawValue hlo hhi hmax hfit,
      setSpeed_targetSpeed_eq m (-rawValue) (by omega) (by omega) hmax hfit, neg_mul]
    generalize rawValue * (m.maxSpeed * m.stepsize.val) = q
    split_ifs with hd <;> omega
  · intro g hg h0
    have hval : toInt16 rawValue = rawValue := toInt16_of_range (by omega) (by omega)
    have hneg : toInt16 (-rawValue) = -rawValue := toInt16_of_range (by omega) (by omega)
    have hF : selectCase commandType.FORWARD.val = some .FORWARD := by decide
    have hR : selectCase commandType.RIGHT.val = some .RIGHT := by decide
    have hB : selectCase commandType.BACKWARD.val = some .BACKWARD := by decide
    have hL : selectCase commandType.LEFT.val = some .LEFT := by decide
    refine ⟨?_, ?_, ?_, ?_⟩
    · simp only [receiveCommands, dispatch, hF, dispatchCase, hval, h0, add_zero, hg]
    · simp only [receiveCommands, dispatch, hR, dispatchCase, hval, h0, add_zero, hg]
    · simp only [receiveCommands, dispatch, hB, dispatchCase, hval, hneg, h0, add_zero, hg]
    · simp only [receiveCommands, dispatch, hL, dispatchCase, hval, hneg, h0, add_zero, hg]

theorem setSpeed_negated_input_witness :
    ((afterSetup .QUARTER false).setSpeed (-(128 : Int))).targetSpeed =
        (if (255 : Int) ∣ 128 * ((afterSetup .QUARTER false).maxSpeed
            * (afterSetup .QUARTER false).stepsize.val) then
          -((afterSetup .QUARTER false).setSpeed 128).targetSpeed
        else -((afterSetup .QUARTER false).setSpeed 128).targetSpeed - 1) ∧
      ∀ g : Globals, g.leftMotor = afterSetup .QUARTER false → g.offsetL = 0 →
        (receiveCommands g commandType.FORWARD.val 128).leftMotor.targetSpeed
            = ((afterSetup .QUARTER false).setSpeed 128).targetSpeed ∧
          (receiveCommands g commandType.RIGHT.val 128).leftMotor.targetSpeed
            = ((afterSetup .QUARTER false).setSpeed 128).targetSpeed ∧
          (receiveCommands g commandType.BACKWARD.val 128).leftMotor.targetSpeed
            = ((afterSetup .QUARTER false).setSpeed (-(128 : Int))).targetSpeed ∧
          (receiveCommands g commandType.LEFT.val 128).leftMotor.targetSpeed
            = ((afterSetup .QUARTER false).setSpeed (-(128 : Int))).targetSpeed :=
  setSpeed_negated_input (afterSetup .QUARTER false) 128 (by decide) (by decide)
    (by decide) (by decide)

/-! ## Independence of the two units -/

theorem run_stepCount_irrelevant (m : continuousStepper) (c c1 now_ms now_us : Nat) :
    (run m c now_ms now_us).map (fun r => r.1) = (run m c1 now_ms now_us).map (fun r => r.1) := by
  unfold run
  simp only
  split_ifs <;> rfl

theorem run_stepCount_cases (m : continuousStepper) (c now_ms now_us : Nat)
    (r : continuousStepper × Nat) (h : run m c now_ms now_us = some r) :
    r.2 = c ∨ r.2 = (c + 1) % 65536 := by
  unfold run at h
  simp only at h
  split_ifs at h <;> simp only [Option.some.injEq] at h <;> subst h
  · right
    show toUInt16 ((c : Int) + 1) = (c + 1) % 65536
    unfold toUInt16
    omega
  · exact Or.inl rfl
  · exact Or.inl rfl

/-- The frame of a call of a method that touches the object only, on either unit. -/
theorem call_of_method (g : Globals) (f : continuousStepper → continuousStepper)
    (L R : Globals → Option Globals) (hL : ∀ x, L x = some (x.onLeft f))
    (hR : ∀ x, R x = some (x.onRight f)) :
    (∀ g1, L g = some g1 → g1.rightMotor = g.rightMotor) ∧
      (∀ g1, R g = some g1 → g1.leftMotor = g.leftMotor) ∧
      (∀ h : Globals, h.leftMotor = g.leftMotor →
        (L h).map (fun x => x.leftMotor) = (L g).map (fun x => x.leftMotor)) ∧
      (∀ h : Globals, h.rightMotor = g.rightMotor →
        (R h).map (fun x => x.rightMotor) = (R g).map (fun x => x.rightMotor)) ∧
      (∀ g1, L g = some g1 →
        g1.stepCount = g.stepCount ∨ g1.stepCount = (g.stepCount + 1) % 65536) ∧
      (∀ g1, R g = some g1 →
        g1.stepCount = g.stepCount ∨ g1.stepCount = (g.stepCount + 1) % 65536) := by
  refine ⟨?_, ?_, ?_, ?_, ?_, ?_⟩
  · intro g1 h1
    rw [hL] at h1
    rw [← Option.some.inj h1]
    rfl
  · intro g1 h1
    rw [hR] at h1
    rw [← Option.some.inj h1]
    rfl
  · intro h hh
    rw [hL, hL]
    simp only [Option.map_some', Globals.onLeft, hh]
  · intro h hh
    rw [hR, hR]
    simp only [Option.map_some', Globals.onRight, hh]
  · intro g1 h1
    rw [hL] at h1
    rw [← Option.some.inj h1]
    exact Or.inl rfl
  · intro g1 h1
    rw [hR] at h1
    rw [← Option.some.inj h1]
    exact Or.inl rfl

/-- C15: for every state of the globals and every operation `setSpeed`, `stop`, `on`,
`off`, `run` (at every clock reading): called on one unit it leaves every field and pin
level of the other unit unchanged; the state it leaves in the called unit is the same
in any two states of the globals that agree on the called unit, so it depends neither
on the other unit nor on `stepCount`; and `stepCount`, the one global both units write,
is left unchanged or incremented modulo `2^16`. -/
theorem units_share_only_stepCount (g : Globals) (op : Globals.Operation) :
    (∀ g1, g.callLeft op = some g1 → g1.rightMotor = g.rightMotor) ∧
      (∀ g1, g.callRight op = some g1 → g1.leftMotor = g.leftMotor) ∧
      (∀ h : Globals, h.leftMotor = g.leftMotor →
        (h.callLeft op).map (fun x => x.leftMotor)
          = (g.callLeft op).map (fun x => x.leftMotor)) ∧
      (∀ h : Globals, h.rightMotor = g.rightMotor →
        (h.callRight op).map (fun x => x.rightMotor)
          = (g.callRight op).map (fun x => x.rightMotor)) ∧
      (∀ g1, g.callLeft op = some g1 →
        g1.stepCount = g.stepCount ∨ g1.stepCount = (g.stepCount + 1) % 65536) ∧
      (∀ g1, g.callRight op = some g1 →
        g1.stepCount = g.stepCount ∨ g1.stepCount = (g.stepCount + 1) % 65536) := by
  cases op with
  | run now_ms now_us =>
    refine ⟨?_, ?_, ?_, ?_, ?_, ?_⟩
    · intro g1 h1
      simp only [Globals.callLeft, Globals.runLeft, Option.map_eq_some'] at h1
      obtain ⟨r, _, hr⟩ := h1
      rw [← hr]
    · intro g1 h1
      simp only [Globals.callRight, Globals.runRight, Option.map_eq_some'] at h1
      obtain ⟨r, _, hr⟩ := h1
      rw [← hr]
    · intro h hh
      simp only [Globals.callLeft, Globals.runLeft, Option.map_map, hh]
      exact run_stepCount_irrelevant g.leftMotor h.stepCount g.stepCount now_ms now_us
    · intro h hh
      simp only [Globals.callRight, Globals.runRight, Option.map_map, hh]
      exact run_stepCount_irrelevant g.rightMotor h.stepCount g.stepCount now_ms now_us
    · intro g1 h1
      simp only [Globals.callLeft, Globals.runLeft, Option.map_eq_some'] at h1
      obtain ⟨r, hrun, hr⟩ := h1
      rw [← hr]
      exact run_stepCount_cases _ _ _ _ r hrun
    · intro g1 h1
      simp only [Globals.callRight, Globals.runRight, Option.map_eq_some'] at h1
      obtain ⟨r, hrun, hr⟩ := h1
      rw [← hr]
      exact run_stepCount_cases _ _ _ _ r hrun
  | setSpeed rawValue => exact call_of_method g _ _ _ (fun _ => rfl) (fun _ => rfl)
  | stop => exact call_of_method g _ _ _ (fun _ => rfl) (fun _ => rfl)
  | on_ => exact call_of_method g _ _ _ (fun _ => rfl) (fun _ => rfl)
  | off => exact call_of_method g _ _ _ (fun _ => rfl) (fun _ => rfl)

/-! ## The divisor of the pulse period -/

theorem run_eq_none_of_zero_divisor (m : continuousStepper) (stepCount now_ms now_us : Nat)
    (hs : (ramp m now_ms).speed ≠ 0) (hd : pulseDivisor (ramp m now_ms).speed = 0) :
    run m stepCount now_ms now_us = none := by
  unfold run
  split_ifs with ha
  · rfl
  · simp only [ne_eq, hs, not_false_eq_true, if_true, hd]

theorem ramp_accel (m : continuousStepper) (now_ms : Nat) :
    (ramp m now_ms).accel = m.accel := by
  unfold ramp setDirection
  simp only [rampStep, gt_iff_lt]
  split_ifs <;> rfl

theorem ramp_prevAccelTime_of_gate (m : continuousStepper) (now_ms : Nat)
    (hgate : rampGate m now_ms = true) :
    (ramp m now_ms).prevAccelTime_ms = toUInt32 now_ms := by
  unfold ramp
  rw [if_pos hgate]
  unfold setDirection
  simp only [rampStep, gt_iff_lt]
  split_ifs <;> rfl

theorem runAtEach_snoc (m : continuousStepper) (c : Nat) (ts : List Nat) (t : Nat) :
    runAtEach m c (ts ++ [t]) = runAt (runAtEach m c ts) t := by
  unfold runAtEach
  rw [List.foldl_append]
  rfl

theorem every21ms_succ (k : Nat) : every21ms (k + 1) = every21ms k ++ [21 * (k + 1)] := by
  unfold every21ms
  rw [List.range_succ, List.map_append]
  rfl

/-- The unit ramping down from 0 towards the target -32768 stored by `setSpeed(10445)`,
with `run()` called every 21 ms: after `k <= 8191` calls the speed is `-4 * k`. -/
theorem ramp_down_trace (k : Nat) (hk : k ≤ 8191) :
    ∃ p, runAtEach ((afterSetup .QUARTER false).setSpeed 10445) 0 (every21ms k) = some p ∧
      p.1.speed = -(4 * (k : Int)) ∧ p.1.targetSpeed = -32768 ∧
      p.1.prevAccelTime_ms = 21 * k ∧ p.1.accel = 50 ∧ p.1.stepsize = .QUARTER := by
  induction k with
  | zero => exact ⟨_, rfl, by decide, by decide, by decide, by decide, by decide⟩
  | succ k ih =>
    obtain ⟨p, hp, hsp, htg, hpa, hac, hst⟩ := ih (by omega)
    have hgate : rampGate p.1 (21 * (k + 1)) = true := by
      unfold rampGate toUInt32
      rw [hpa, hac, decide_eq_true_eq]
      have h20 : (1000 : Nat) / 50 = 20 := by decide
      rw [h20]
      push_cast
      omega
    have hval : p.1.stepsize.val = 4 := by rw [hst]; rfl
    have hrs : (ramp p.1 (21 * (k + 1))).speed = -(4 * ((k + 1 : Nat) : Int)) := by
      rw [ramp_speed_of_gate _ _ hgate,
        rampStep_speed_down _ (by rw [htg, hsp]; omega) (by rw [hsp]; omega)
          (by rw [hsp, hval]; omega), hsp, htg, hval]
      have hmax : max (-(4 * (k : Int)) - 4) (-32768) = -(4 * (k : Int)) - 4 :=
        max_eq_left (by omega)
      rw [hmax]
      push_cast
      ring
    have hsome := run_isSome p.1 p.2 (21 * (k + 1)) (1000 * (21 * (k + 1))) (by omega)
      (Or.inr (pulseDivisor_ne_zero _ (by rw [hrs]; push_cast; omega)
        (by rw [hrs]; push_cast; omega) (by rw [hrs]; push_cast; omega)))
    obtain ⟨r, hr⟩ := hsome
    have hf := run_ramp_fields p.1 p.2 _ _ r hr
    refine ⟨r, ?_, ?_, ?_, ?_, ?_, ?_⟩
    · rw [every21ms_succ, runAtEach_snoc, hp]
      exact hr
    · rw [hf.1, hrs]
    · rw [hf.2.1, ramp_targetSpeed, htg]
    · rw [hf.2.2.2.2.1, ramp_prevAccelTime_of_gate _ _ hgate]
      unfold toUInt32
      omega
    · rw [hf.2.2.2.1, ramp_accel, hac]
    · rw [hf.2.2.1, ramp_stepsize, hst]

/-- C16, the failing input: after `setup()`, `setSpeed(10445)` stores the target -32768
(the unclamped `map` result 32768 converted to `int16_t`); with `run()` called every
21 ms the speed is -32764 after 8191 calls, and the next call ramps it to -32768, where
`abs(speed)` is -32768 in 16-bit `int`, `abs(speed)*2` is 0, and line 167 divides
1000000 by that zero divisor although `speed != 0`. -/
theorem run_zero_pulse_divisor_at_min_speed :
    ((afterSetup .QUARTER false).setSpeed 10445).targetSpeed = -32768 ∧
      (runAtEach ((afterSetup .QUARTER false).setSpeed 10445) 0 (every21ms 8191)).map
          (fun p => p.1.speed) = some (-32764) ∧
      arduinoAbs (-32768) = -32768 ∧ pulseDivisor (-32768) = 0 ∧
      runAtEach ((afterSetup .QUARTER false).setSpeed 10445) 0 (every21ms 8192) = none := by
  obtain ⟨p, hp, hsp, htg, hpa, hac, hst⟩ := ramp_down_trace 8191 (le_refl _)
  refine ⟨by decide, ?_, by decide, by decide, ?_⟩
  · rw [hp, Option.map_some', hsp]
    rfl
  · have hgate : rampGate p.1 (21 * (8191 + 1)) = true := by
      unfold rampGate toUInt32
      rw [hpa, hac, decide_eq_true_eq]
      decide
    have hval : p.1.stepsize.val = 4 := by rw [hst]; rfl
    have hrs : (ramp p.1 (21 * (8191 + 1))).speed = -32768 := by
      rw [ramp_speed_of_gate _ _ hgate,
        rampStep_speed_down _ (by rw [htg, hsp]; decide) (by rw [hsp]; decide)
          (by rw [hsp, hval]; decide), hsp, htg, hval]
      decide
    rw [every21ms_succ, runAtEach_snoc, hp]
    show run p.1 p.2 (21 * (8191 + 1)) (1000 * (21 * (8191 + 1))) = none
    exact run_eq_none_of_zero_divisor _ _ _ _ (by rw [hrs]; decide) (by rw [hrs]; decide)


theorem pulseDivisor_eq (speed : Int) (h : speed.natAbs ≤ 16383) :
    pulseDivisor speed = 2 * speed.natAbs := by
  unfold pulseDivisor arduinoAbs toUInt32 toInt16
  split_ifs <;> omega

/-- The pulse block of `run()` for a non-zero speed after the ramp block whose doubled
magnitude fits in `int`. -/
theorem run_pulse_cases (m : continuousStepper) (stepCount now_ms now_us : Nat)
    (hacc : 1 ≤ m.accel) (hs0 : (ramp m now_ms).speed ≠ 0)
    (hs : (ramp m now_ms).speed.natAbs ≤ 16383) :
    ∃ r, run m stepCount now_ms now_us = some r ∧
      if toUInt32 ((now_us : Int) - m.prevStepTime_us)
          > 1000000 / (2 * (ramp m now_ms).speed.natAbs) then
        r.1.stepState = (!m.stepState) ∧ r.1.STP = (!m.stepState) ∧
          r.2 = (stepCount + 1) % 65536 ∧ r.1.prevStepTime_us = now_us % 4294967296
      else
        r.1.stepState = m.stepState ∧ r.1.STP = m.STP ∧ r.2 = stepCount ∧
          r.1.prevStepTime_us = m.prevStepTime_us := by
  have ha : ¬ m.accel = 0 := by omega
  have hd : pulseDivisor (ramp m now_ms).speed ≠ 0 := by
    rw [pulseDivisor_eq _ hs]; omega
  have hr := ramp_pulse_fields m now_ms
  have hg : pulseGate (ramp m now_ms) now_us
      = decide (toUInt32 ((now_us : Int) - m.prevStepTime_us)
          > 1000000 / (2 * (ramp m now_ms).speed.natAbs)) := by
    unfold pulseGate
    rw [hr.2.2, pulseDivisor_eq _ hs]
  unfold run
  simp only [if_neg ha, ne_eq, hs0, not_false_eq_true, if_true, if_neg hd, hg]
  by_cases hopen : toUInt32 ((now_us : Int) - m.prevStepTime_us)
      > 1000000 / (2 * (ramp m now_ms).speed.natAbs)
  · simp only [hopen, decide_True, if_true]
    refine ⟨_, rfl, ?_, ?_, ?_, ?_⟩
    · rw [(power_pulse_fields _).1]
      show (!(ramp m now_ms).stepState) = !m.stepState
      rw [hr.1]
    · rw [(power_pulse_fields _).2.1]
      show (!(ramp m now_ms).stepState) = !m.stepState
      rw [hr.1]
    · show toUInt16 ((stepCount : Int) + 1) = (stepCount + 1) % 65536
      unfold toUInt16; omega
    · rw [(power_pulse_fields _).2.2]
      show toUInt32 (now_us : Int) = now_us % 4294967296
      unfold toUInt32; omega
  · simp only [hopen, decide_False, if_false, Bool.false_eq_true]
    refine ⟨_, rfl, ?_, ?_, rfl, ?_⟩
    · rw [(power_pulse_fields _).1]; exact hr.1
    · rw [(power_pulse_fields _).2.1]; exact hr.2.1
    · rw [(power_pulse_fields _).2.2]; exact hr.2.2

/-- C17, as the specification states it, fails: from `setup()` and `setSpeed(255)` with
`run()` at every millisecond, the state before the call at 672 ms has `currentSpeed`
124 and `prevStepTime_us` 668000; `floor(1000000/(2*124))` is 4032, yet the call at
672000 us, 4000 us after the last edge, opens the pulse gate (`stepState` toggles,
`stepCount` goes from 77 to 78), because its ramp step first raises the speed to 128.
Besides, at `currentSpeed = targetSpeed = 20000` (the target stored by `setSpeed(6375)`)
`abs(speed)*2` overflows 16-bit `int`, the period computed is 0 and the gate opens 10 us
after the last edge, although `floor(1000000/(2*20000))` is 25. -/
theorem run_pulse_gate_uses_ramped_speed :
    (runAtEach ((afterSetup .QUARTER false).setSpeed 255) 0 (List.range 672)).map
        (fun p => (p.1.speed, p.1.prevStepTime_us, p.1.stepState, p.1.STP, p.2))
        = some (124, 668000, true, HIGH, 77) ∧
      toUInt32 ((672000 : Int) - 668000) = 4000 ∧ 1000000 / (2 * (124 : Int).natAbs) = 4032 ∧
      ((runAtEach ((afterSetup .QUARTER false).setSpeed 255) 0 (List.range 672)).bind
          fun p => run p.1 p.2 672 672000).map
        (fun r => (r.1.speed, r.1.prevStepTime_us, r.1.stepState, r.1.STP, r.2))
        = some (128, 672000, false, LOW, 78) ∧
      ((afterSetup .QUARTER false).setSpeed 6375).targetSpeed = 20000 ∧
      1000000 / (2 * (20000 : Int).natAbs) = 25 ∧ 1000000 / pulseDivisor 20000 = 0 ∧
      (run { (afterSetup .QUARTER false).setSpeed 6375 with speed := 20000 } 0 0 10).map
        (fun r => (r.1.speed, r.1.prevStepTime_us, r.1.stepState, r.1.STP, r.2))
        = some (20000, 10, true, HIGH, 1) := by
  refine ⟨?_, by decide, by decide, ?_, by decide, by decide, by decide, by decide⟩
  · set_option maxRecDepth 100000 in decide
  · set_option maxRecDepth 100000 in decide

/-- C17, amended: for every state with `accel >= 1`, every `stepCount` and every clock
reading, let `s` be `currentSpeed` after the ramp block of that call, with `s != 0` and
`|s| <= 16383`.  `run()` has a result; its pulse gate opens exactly when more than
`floor(1000000/(2*|s|))` microseconds have elapsed since `prevStepTime_us` (difference
modulo `2^32`); when it opens, `stepState` is negated and written to `STP`, `stepCount`
increases by 1 modulo `2^16` and `prevStepTime_us` becomes `now_us`; when it does not
open, the four are unchanged.  Hence an edge at `now_us` and the next edge, at the same
speed after the ramp block, are more than `floor(1000000/(2*|s|))` microseconds apart. -/
theorem run_pulse_gate (m : continuousStepper) (stepCount now_ms now_us : Nat)
    (hacc : 1 ≤ m.accel) (hs0 : (ramp m now_ms).speed ≠ 0)
    (hs : (ramp m now_ms).speed.natAbs ≤ 16383) (hus : now_us < 4294967296) :
    (∃ r, run m stepCount now_ms now_us = some r ∧
      if toUInt32 ((now_us : Int) - m.prevStepTime_us)
          > 1000000 / (2 * (ramp m now_ms).speed.natAbs) then
        r.1.stepState = (!m.stepState) ∧ r.1.STP = (!m.stepState) ∧
          r.2 = (stepCount + 1) % 65536 ∧ r.1.prevStepTime_us = now_us
      else
        r.1.stepState = m.stepState ∧ r.1.STP = m.STP ∧ r.2 = stepCount ∧
          r.1.prevStepTime_us = m.prevStepTime_us) ∧
      ∀ r, run m stepCount now_ms now_us = some r → r.1.stepState ≠ m.stepState →
        ∀ stepCount2 now_ms2 now_us2 r2,
          run r.1 stepCount2 now_ms2 now_us2 = some r2 →
          (ramp r.1 now_ms2).speed = (ramp m now_ms).speed →
          r2.1.stepState ≠ r.1.stepState →
          toUInt32 ((now_us2 : Int) - now_us)
            > 1000000 / (2 * (ramp m now_ms).speed.natAbs) := by
  have hmod : now_us % 4294967296 = now_us := Nat.mod_eq_of_lt hus
  obtain ⟨r0, hr0, hc0⟩ := run_pulse_cases m stepCount now_ms now_us hacc hs0 hs
  rw [hmod] at hc0
  refine ⟨⟨r0, hr0, hc0⟩, ?_⟩
  intro r hr hedge stepCount2 now_ms2 now_us2 r2 hr2 hsame hedge2
  have hrr : r = r0 := Option.some.inj (hr.symm.trans hr0)
  subst hrr
  have hprev : r.1.prevStepTime_us = now_us := by
    split_ifs at hc0 with hopen
    · exact hc0.2.2.2
    · exact absurd hc0.1 hedge
  have hacc2 : 1 ≤ r.1.accel := by
    rw [(run_ramp_fields m stepCount now_ms now_us r hr).2.2.2.1, ramp_accel]
    exact hacc
  obtain ⟨r3, hr3, hc3⟩ := run_pulse_cases r.1 stepCount2 now_ms2 now_us2 hacc2
    (by rw [hsame]; exact hs0) (by rw [hsame]; exact hs)
  have hrr2 : r2 = r3 := Option.some.inj (hr2.symm.trans hr3)
  subst hrr2
  rw [hsame, hprev] at hc3
  split_ifs at hc3 with hopen
  · exact hopen
  · exact absurd hc3.1 hedge2

theorem run_pulse_gate_witness :
    (∃ r, run { (afterSetup .QUARTER false).setSpeed 255 with speed := 124 }
          77 672 672000 = some r ∧
      if toUInt32 ((672000 : Nat) - ({ (afterSetup .QUARTER false).setSpeed 255 with
            speed := 124 }).prevStepTime_us : Int)
          > 1000000 / (2 * (ramp { (afterSetup .QUARTER false).setSpeed 255 with
              speed := 124 } 672).speed.natAbs) then
        r.1.stepState = (!({ (afterSetup .QUARTER false).setSpeed 255 with
            speed := 124 }).stepState) ∧
          r.1.STP = (!({ (afterSetup .QUARTER false).setSpeed 255 with
            speed := 124 }).stepState) ∧
          r.2 = (77 + 1) % 65536 ∧ r.1.prevStepTime_us = 672000
      else
        r.1.stepState = ({ (afterSetup .QUARTER false).setSpeed 255 with
            speed := 124 }).stepState ∧
          r.1.STP = ({ (afterSetup .QUARTER false).setSpeed 255 with speed := 124 }).STP ∧
          r.2 = 77 ∧
          r.1.prevStepTime_us = ({ (afterSetup .QUARTER false).setSpeed 255 with
            speed := 124 }).prevStepTime_us) ∧
      ∀ r, run { (afterSetup .QUARTER false).setSpeed 255 with speed := 124 }
          77 672 672000 = some r →
        r.1.stepState ≠ ({ (afterSetup .QUARTER false).setSpeed 255 with
            speed := 124 }).stepState →
        ∀ stepCount2 now_ms2 now_us2 r2,
          run r.1 stepCount2 now_ms2 now_us2 = some r2 →
          (ramp r.1 now_ms2).speed
            = (ramp { (afterSetup .QUARTER false).setSpeed 255 with speed := 124 } 672).speed →
          r2.1.stepState ≠ r.1.stepState →
          toUInt32 ((now_us2 : Int) - (672000 : Nat))
            > 1000000 / (2 * (ramp { (afterSetup .QUARTER false).setSpeed 255 with
                speed := 124 } 672).speed.natAbs) :=
  run_pulse_gate { (afterSetup .QUARTER false).setSpeed 255 with speed := 124 } 77 672 672000
    (by decide) (by decide) (by decide) (by decide)


/-! ## Direction output -/

theorem setDirection_DIR (m : continuousStepper) :
    (setDirection m).DIR =
      if 0 < m.speed then m.invert else if m.speed < 0 then !m.invert else m.DIR := by
  unfold setDirection
  simp only [gt_iff_lt]
  split_ifs with h1 h2 h3 h4 <;> simp_all

theorem rampStep_DIR_invert (m : continuousStepper) :
    (rampStep m).DIR = m.DIR ∧ (rampStep m).invert = m.invert := by
  simp only [rampStep, gt_iff_lt]
  split_ifs <;> exact ⟨rfl, rfl⟩

theorem ramp_DIR_of_gate (m : continuousStepper) (now_ms : Nat)
    (hgate : rampGate m now_ms = true) :
    (ramp m now_ms).DIR =
      if 0 < (ramp m now_ms).speed then m.invert
      else if (ramp m now_ms).speed < 0 then !m.invert else m.DIR := by
  have hsp : (ramp m now_ms).speed
      = (rampStep { m with prevAccelTime_ms := toUInt32 now_ms }).speed := by
    unfold ramp
    rw [if_pos hgate, setDirection_speed]
  rw [hsp]
  unfold ramp
  rw [if_pos hgate, setDirection_DIR, (rampStep_DIR_invert _).1, (rampStep_DIR_invert _).2]

/-- C18: for every state with `accel >= 1` and every clock reading, `run()` has a result
when the speed after the ramp block is in `[-32767, 32767]`, and in every result: after a
ramp step (ramp gate open) ending with `currentSpeed != 0` the `DIR` level is `HIGH`
exactly when `(currentSpeed < 0) XOR invert`; after a ramp step ending with
`currentSpeed == 0`, or with the ramp gate closed, `DIR` keeps its previous level; and a
unit with the opposite `invert` whose ramp step ends with a speed of the same sign
drives the opposite `DIR` level. -/
theorem run_direction (m : continuousStepper) (stepCount now_ms now_us : Nat)
    (hacc : 1 ≤ m.accel) :
    ((-32767 ≤ (ramp m now_ms).speed ∧ (ramp m now_ms).speed ≤ 32767) →
        ∃ r, run m stepCount now_ms now_us = some r) ∧
      ∀ r, run m stepCount now_ms now_us = some r →
        (rampGate m now_ms = true → r.1.speed ≠ 0 →
          r.1.DIR = Bool.xor (decide (r.1.speed < 0)) m.invert) ∧
        (rampGate m now_ms = true → r.1.speed = 0 → r.1.DIR = m.DIR) ∧
        (rampGate m now_ms = false → r.1.DIR = m.DIR) ∧
        ∀ (m2 : continuousStepper) (stepCount2 now_us2 : Nat) (r2 : continuousStepper × Nat),
          run m2 stepCount2 now_ms now_us2 = some r2 →
          rampGate m now_ms = true → rampGate m2 now_ms = true →
          m2.invert = (!m.invert) → r.1.speed ≠ 0 → r2.1.speed ≠ 0 →
          (r2.1.speed < 0 ↔ r.1.speed < 0) → r2.1.DIR = !r.1.DIR := by
  have key : ∀ (x : continuousStepper) (c u : Nat) (q : continuousStepper × Nat),
      run x c now_ms u = some q → rampGate x now_ms = true → q.1.speed ≠ 0 →
        q.1.DIR = Bool.xor (decide (q.1.speed < 0)) x.invert := by
    intro x c u q hq hgate hne
    have hf := run_ramp_fields x c now_ms u q hq
    rw [hf.2.2.2.2.2.2.2, hf.1, ramp_DIR_of_gate x now_ms hgate]
    rw [hf.1] at hne
    split_ifs with h1 h2
    · have : ¬ (ramp x now_ms).speed < 0 := by omega
      simp [this]
    · simp [h2]
    · exact absurd (by omega) hne
  constructor
  · intro hr
    apply run_isSome m stepCount now_ms now_us hacc
    by_cases h0 : (ramp m now_ms).speed = 0
    · exact Or.inl h0
    · exact Or.inr (pulseDivisor_ne_zero _ h0 hr.1 hr.2)
  · intro r hrun
    have hf := run_ramp_fields m stepCount now_ms now_us r hrun
    refine ⟨key m stepCount now_us r hrun, ?_, ?_, ?_⟩
    · intro hgate hz
      rw [hf.1] at hz
      rw [hf.2.2.2.2.2.2.2, ramp_DIR_of_gate m now_ms hgate, if_neg (by omega),
        if_neg (by omega)]
    · intro hgate
      rw [hf.2.2.2.2.2.2.2, ramp_of_closed m now_ms hgate]
    · intro m2 stepCount2 now_us2 r2 hrun2 hgate hgate2 hinv hne hne2 hsign
      rw [key m stepCount now_us r hrun hgate hne,
        key m2 stepCount2 now_us2 r2 hrun2 hgate2 hne2, hinv]
      have hd : decide (r2.1.speed < 0) = decide (r.1.speed < 0) := by
        simp only [decide_eq_decide]; exact hsign
      rw [hd]
      cases decide (r.1.speed < 0) <;> cases m.invert <;> rfl

theorem run_direction_witness :
    ((-32767 ≤ (ramp ((afterSetup .QUARTER true).setSpeed (-255)) 21).speed ∧
          (ramp ((afterSetup .QUARTER true).setSpeed (-255)) 21).speed ≤ 32767) →
        ∃ r, run ((afterSetup .QUARTER true).setSpeed (-255)) 0 21 21000 = some r) ∧
      ∀ r, run ((afterSetup .QUARTER true).setSpeed (-255)) 0 21 21000 = some r →
        (rampGate ((afterSetup .QUARTER true).setSpeed (-255)) 21 = true → r.1.speed ≠ 0 →
          r.1.DIR = Bool.xor (decide (r.1.speed < 0))
            ((afterSetup .QUARTER true).setSpeed (-255)).invert) ∧
        (rampGate ((afterSetup .QUARTER true).setSpeed (-255)) 21 = true → r.1.speed = 0 →
          r.1.DIR = ((afterSetup .QUARTER true).setSpeed (-255)).DIR) ∧
        (rampGate ((afterSetup .QUARTER true).setSpeed (-255)) 21 = false →
          r.1.DIR = ((afterSetup .QUARTER true).setSpeed (-255)).DIR) ∧
        ∀ (m2 : continuousStepper) (stepCount2 now_us2 : Nat) (r2 : continuousStepper × Nat),
          run m2 stepCount2 21 now_us2 = some r2 →
          rampGate ((afterSetup .QUARTER true).setSpeed (-255)) 21 = true →
          rampGate m2 21 = true →
          m2.invert = (!((afterSetup .QUARTER true).setSpeed (-255)).invert) →
          r.1.speed ≠ 0 → r2.1.speed ≠ 0 →
          (r2.1.speed < 0 ↔ r.1.speed < 0) → r2.1.DIR = !r.1.DIR :=
  run_direction ((afterSetup .QUARTER true).setSpeed (-255)) 0 21 21000 (by decide)


/-! ## Convergence of the ramp -/

theorem microstep.val_cases (s : microstep) :
    s.val = 1 ∨ s.val = 2 ∨ s.val = 4 ∨ s.val = 8 ∨ s.val = 16 := by
  cases s <;> simp [microstep.val]

/-- Integer form of `ceil(d / v)` for the five microstep factors. -/
theorem stepsNeeded_bounds (d v : Int) (hd : 0 ≤ d)
    (hv : v = 1 ∨ v = 2 ∨ v = 4 ∨ v = 8 ∨ v = 16) :
    d ≤ (((d + v - 1) / v).toNat : Int) * v ∧
      ((((d + v - 1) / v).toNat : Int) - 1) * v < d := by
  rcases hv with rfl | rfl | rfl | rfl | rfl <;> constructor <;> omega

theorem rampSteps_speed_up_closed (m : continuousStepper) (h0 : m.speed ≤ m.targetSpeed)
    (hlo : -32768 ≤ m.speed)
    (hfit : ∀ k : Nat, m.speed + k * m.stepsize.val < m.targetSpeed →
      m.speed + (k + 1) * m.stepsize.val ≤ 32767) (n : Nat) :
    (rampSteps n m).speed = min (m.speed + n * m.stepsize.val) m.targetSpeed := by
  have hv := m.stepsize.val_pos
  induction n with
  | zero => simp only [rampSteps, Nat.cast_zero, zero_mul, add_zero]; exact (min_eq_left h0).symm
  | succ n ih =>
    have ht := rampSteps_targetSpeed n m
    have hz := rampSteps_stepsize n m
    have hnn : (0 : Int) ≤ n * m.stepsize.val := by positivity
    have hcast : ((n + 1 : Nat) : Int) * m.stepsize.val
        = n * m.stepsize.val + m.stepsize.val := by push_cast; ring
    rw [hcast]
    rcases lt_or_le (m.speed + n * m.stepsize.val) m.targetSpeed with hlt | hge
    · have hsn : (rampSteps n m).speed = m.speed + n * m.stepsize.val := by
        rw [ih]; exact min_eq_left (le_of_lt hlt)
      have hf := hfit n hlt
      have hf2 : m.speed + n * m.stepsize.val + m.stepsize.val ≤ 32767 := by
        have : (↑n + 1) * m.stepsize.val = n * m.stepsize.val + m.stepsize.val := by ring
        rw [this] at hf; omega
      rw [rampSteps, rampStep_speed_up _ (by rw [ht, hsn]; exact hlt) (by rw [hsn]; omega)
        (by rw [hsn, hz]; exact hf2), hsn, hz, ht, add_assoc]
    · have hsn : (rampSteps n m).speed = m.targetSpeed := by
        rw [ih]; exact min_eq_right hge
      rw [rampSteps, rampStep_speed_eq _ (by rw [ht]; exact hsn), hsn]
      exact (min_eq_right (by omega)).symm

theorem rampSteps_speed_down_closed (m : continuousStepper) (h0 : m.targetSpeed ≤ m.speed)
    (hhi : m.speed ≤ 32767)
    (hfit : ∀ k : Nat, m.targetSpeed < m.speed - k * m.stepsize.val →
      -32768 ≤ m.speed - (k + 1) * m.stepsize.val) (n : Nat) :
    (rampSteps n m).speed = max (m.speed - n * m.stepsize.val) m.targetSpeed := by
  have hv := m.stepsize.val_pos
  induction n with
  | zero => simp only [rampSteps, Nat.cast_zero, zero_mul, sub_zero]; exact (max_eq_left h0).symm
  | succ n ih =>
    have ht := rampSteps_targetSpeed n m
    have hz := rampSteps_stepsize n m
    have hnn : (0 : Int) ≤ n * m.stepsize.val := by positivity
    have hcast : ((n + 1 : Nat) : Int) * m.stepsize.val
        = n * m.stepsize.val + m.stepsize.val := by push_cast; ring
    rw [hcast]
    rcases lt_or_le m.targetSpeed (m.speed - n * m.stepsize.val) with hlt | hge
    · have hsn : (rampSteps n m).speed = m.speed - n * m.stepsize.val := by
        rw [ih]; exact max_eq_left (le_of_lt hlt)
      have hf := hfit n hlt
      have hf2 : -32768 ≤ m.speed - n * m.stepsize.val - m.stepsize.val := by
        have : (↑n + 1) * m.stepsize.val = n * m.stepsize.val + m.stepsize.val := by ring
        rw [this] at hf; omega
      rw [rampSteps, rampStep_speed_down _ (by rw [ht, hsn]; exact hlt) (by rw [hsn]; omega)
        (by rw [hsn, hz]; exact hf2), hsn, hz, ht, sub_sub]
    · have hsn : (rampSteps n m).speed = m.targetSpeed := by
        rw [ih]; exact max_eq_right hge
      rw [rampSteps, rampStep_speed_eq _ (by rw [ht]; exact hsn), hsn]
      exact (max_eq_right (by omega)).symm

theorem rampStepsToTarget_bounds (m : continuousStepper) :
    |m.targetSpeed - m.speed| ≤ (rampStepsToTarget m : Int) * m.stepsize.val ∧
      ((rampStepsToTarget m : Int) - 1) * m.stepsize.val < |m.targetSpeed - m.speed| :=
  stepsNeeded_bounds _ _ (abs_nonneg _) m.stepsize.val_cases

/-- Without `int16` overflow on the way, the speed after `n` ramp steps is the target
exactly from `rampStepsToTarget` steps on. -/
theorem rampSteps_speed_eq_target_iff (m : continuousStepper)
    (hs : -32768 ≤ m.speed ∧ m.speed ≤ 32767)
    (hup : m.speed < m.targetSpeed →
      m.speed + rampStepsToTarget m * m.stepsize.val ≤ 32767)
    (hdn : m.targetSpeed < m.speed →
      -32768 ≤ m.speed - rampStepsToTarget m * m.stepsize.val) (n : Nat) :
    (rampSteps n m).speed = m.targetSpeed ↔ rampStepsToTarget m ≤ n := by
  obtain ⟨hb1, hb2⟩ := rampStepsToTarget_bounds m
  have hvc := m.stepsize.val_cases
  generalize rampStepsToTarget m = N at *
  generalize hv : m.stepsize.val = v at *
  rcases lt_trichotomy m.speed m.targetSpeed with hlt | heq | hgt
  · have hd : |m.targetSpeed - m.speed| = m.targetSpeed - m.speed := abs_of_pos (by omega)
    rw [hd] at hb1 hb2
    have hfit : ∀ k : Nat, m.speed + k * m.stepsize.val < m.targetSpeed →
        m.speed + (k + 1) * m.stepsize.val ≤ 32767 := by
      have h := hup hlt
      intro k hk
      rw [hv] at hk ⊢
      rcases hvc with rfl | rfl | rfl | rfl | rfl <;> omega
    rw [rampSteps_speed_up_closed m (le_of_lt hlt) hs.1 hfit n, hv]
    rcases hvc with rfl | rfl | rfl | rfl | rfl <;>
      rcases min_cases (m.speed + (n : Int) * _) m.targetSpeed with ⟨h1, h2⟩ | ⟨h1, h2⟩ <;>
      rw [h1] <;> omega
  · have hd : |m.targetSpeed - m.speed| = 0 := by rw [heq, sub_self, abs_zero]
    rw [hd] at hb1 hb2
    have hfit : ∀ k : Nat, m.speed + k * m.stepsize.val < m.targetSpeed →
        m.speed + (k + 1) * m.stepsize.val ≤ 32767 := by
      intro k hk
      have : (0 : Int) ≤ k * m.stepsize.val :=
        mul_nonneg (Int.ofNat_nonneg k) (by have := m.stepsize.val_pos; omega)
      omega
    rw [rampSteps_speed_up_closed m (le_of_eq heq) hs.1 hfit n, hv]
    have hN : N = 0 := by
      rcases hvc with rfl | rfl | rfl | rfl | rfl <;> omega
    subst hN
    have hnn : (0 : Int) ≤ n * v :=
      mul_nonneg (Int.ofNat_nonneg n) (by rcases hvc with rfl | rfl | rfl | rfl | rfl <;> omega)
    rw [min_eq_right (by omega)]
    exact ⟨fun _ => Nat.zero_le n, fun _ => rfl⟩
  · have hd : |m.targetSpeed - m.speed| = m.speed - m.targetSpeed := by
      rw [abs_of_neg (by omega)]; ring
    rw [hd] at hb1 hb2
    have hfit : ∀ k : Nat, m.targetSpeed < m.speed - k * m.stepsize.val →
        -32768 ≤ m.speed - (k + 1) * m.stepsize.val := by
      have h := hdn hgt
      intro k hk
      rw [hv] at hk ⊢
      rcases hvc with rfl | rfl | rfl | rfl | rfl <;> omega
    rw [rampSteps_speed_down_closed m (le_of_lt hgt) hs.2 hfit n, hv]
    rcases hvc with rfl | rfl | rfl | rfl | rfl <;>
      rcases max_cases (m.speed - (n : Int) * _) m.targetSpeed with ⟨h1, h2⟩ | ⟨h1, h2⟩ <;>
      rw [h1] <;> omega

theorem rampStep_congr (a b : continuousStepper) (h1 : a.speed = b.speed)
    (h2 : a.targetSpeed = b.targetSpeed) (h3 : a.stepsize = b.stepsize) :
    (rampStep a).speed = (rampStep b).speed := by
  rw [rampStep_speed, rampStep_speed, h1, h2, h3]

theorem rampSteps_congr (n : Nat) (a b : continuousStepper) (h1 : a.speed = b.speed)
    (h2 : a.targetSpeed = b.targetSpeed) (h3 : a.stepsize = b.stepsize) :
    (rampSteps n a).speed = (rampSteps n b).speed := by
  induction n with
  | zero => exact h1
  | succ n ih =>
    exact rampStep_congr _ _ ih
      (by rw [rampSteps_targetSpeed, rampSteps_targetSpeed, h2])
      (by rw [rampSteps_stepsize, rampSteps_stepsize, h3])

theorem rampSteps_succ_left (n : Nat) (m : continuousStepper) :
    rampSteps n (rampStep m) = rampStep (rampSteps n m) := by
  induction n with
  | zero => rfl
  | succ n ih => rw [rampSteps, ih]; rfl

/-- The speed after the ramp block has run at the given clock readings is the speed
after as many ramp steps as the gate was open. -/
theorem rampAtEach_speed_eq_rampSteps (m : continuousStepper) (ts : List Nat) :
    (rampAtEach m ts).speed = (rampSteps (rampCount m ts) m).speed := by
  induction ts generalizing m with
  | nil => rfl
  | cons t ts ih =>
    have hcons : rampAtEach m (t :: ts) = rampAtEach (ramp m t) ts := rfl
    rw [hcons, ih (ramp m t)]
    cases hgate : rampGate m t with
    | false =>
      simp only [rampCount, hgate, Bool.false_eq_true, if_false, Nat.zero_add]
      rw [ramp_of_closed m t hgate]
    | true =>
      have hc : rampCount m (t :: ts) = rampCount (ramp m t) ts + 1 := by
        simp only [rampCount, hgate, if_true, Nat.add_comm]
      rw [hc, rampSteps, ← rampSteps_succ_left]
      exact rampSteps_congr _ _ _ (ramp_speed_of_gate m t hgate)
        (by rw [ramp_targetSpeed, rampStep_targetSpeed])
        (by rw [ramp_stepsize, rampStep_stepsize])

/-- C19: for every starting `currentSpeed`, fixed `targetSpeed` and microstep factor,
with no `int16` overflow on the way, the number `ceil(|targetSpeed - currentSpeed| /
microstepFactor)` of ramp steps brings `currentSpeed` to `targetSpeed`, and after any
smaller number of ramp steps `currentSpeed != targetSpeed`; the same holds for the ramp
block of `run()` executed at any clock readings, counting the ramp steps as the
executions with the ramp gate open. -/
theorem ramp_converges_in_ceil_steps (m : continuousStepper)
    (hs : -32768 ≤ m.speed ∧ m.speed ≤ 32767)
    (hup : m.speed < m.targetSpeed →
      m.speed + rampStepsToTarget m * m.stepsize.val ≤ 32767)
    (hdn : m.targetSpeed < m.speed →
      -32768 ≤ m.speed - rampStepsToTarget m * m.stepsize.val) :
    (rampStepsToTarget m : Int)
        = ⌈((|m.targetSpeed - m.speed| : Int) : ℚ) / ((m.stepsize.val : Int) : ℚ)⌉ ∧
      (rampSteps (rampStepsToTarget m) m).speed = m.targetSpeed ∧
      (∀ n, n < rampStepsToTarget m → (rampSteps n m).speed ≠ m.targetSpeed) ∧
      (∀ ts, rampCount m ts = rampStepsToTarget m →
        (rampAtEach m ts).speed = m.targetSpeed) ∧
      (∀ ts, rampCount m ts < rampStepsToTarget m →
        (rampAtEach m ts).speed ≠ m.targetSpeed) := by
  have hiff := rampSteps_speed_eq_target_iff m hs hup hdn
  refine ⟨?_, (hiff _).mpr (le_refl _), ?_, ?_, ?_⟩
  · obtain ⟨hb1, hb2⟩ := rampStepsToTarget_bounds m
    have hv := m.stepsize.val_pos
    have hvq : (0 : ℚ) < ((m.stepsize.val : Int) : ℚ) := by exact_mod_cast hv
    symm
    rw [Int.ceil_eq_iff]
    constructor
    · rw [lt_div_iff₀ hvq]
      exact_mod_cast hb2
    · rw [div_le_iff₀ hvq]
      exact_mod_cast hb1
  · intro n hn heq
    exact absurd ((hiff n).mp heq) (by omega)
  · intro ts hts
    rw [rampAtEach_speed_eq_rampSteps, hts]
    exact (hiff _).mpr (le_refl _)
  · intro ts hts heq
    rw [rampAtEach_speed_eq_rampSteps] at heq
    exact absurd ((hiff _).mp heq) (by omega)

theorem ramp_converges_in_ceil_steps_witness :
    (rampStepsToTarget ((afterSetup .QUARTER false).setSpeed 2) : Int)
        = ⌈((|((afterSetup .QUARTER false).setSpeed 2).targetSpeed
              - ((afterSetup .QUARTER false).setSpeed 2).speed| : Int) : ℚ)
            / ((((afterSetup .QUARTER false).setSpeed 2).stepsize.val : Int) : ℚ)⌉ ∧
      (rampSteps (rampStepsToTarget ((afterSetup .QUARTER false).setSpeed 2))
          ((afterSetup .QUARTER false).setSpeed 2)).speed
        = ((afterSetup .QUARTER false).setSpeed 2).targetSpeed ∧
      (∀ n, n < rampStepsToTarget ((afterSetup .QUARTER false).setSpeed 2) →
        (rampSteps n ((afterSetup .QUARTER false).setSpeed 2)).speed
          ≠ ((afterSetup .QUARTER false).setSpeed 2).targetSpeed) ∧
      (∀ ts, rampCount ((afterSetup .QUARTER false).setSpeed 2) ts
          = rampStepsToTarget ((afterSetup .QUARTER false).setSpeed 2) →
        (rampAtEach ((afterSetup .QUARTER false).setSpeed 2) ts).speed
          = ((afterSetup .QUARTER false).setSpeed 2).targetSpeed) ∧
      (∀ ts, rampCount ((afterSetup .QUARTER false).setSpeed 2) ts
          < rampStepsToTarget ((afterSetup .QUARTER false).setSpeed 2) →
        (rampAtEach ((afterSetup .QUARTER false).setSpeed 2) ts).speed
          ≠ ((afterSetup .QUARTER false).setSpeed 2).targetSpeed) :=
  ramp_converges_in_ceil_steps ((afterSetup .QUARTER false).setSpeed 2)
    (by decide) (by decide) (by decide)


end TBRo
